import Mathlib

/-!
Verification of the paged-heap and Maglev graph-builder subsystems.

The definitions below are shallow embeddings of functions from the two
source files of the repository: `src/unnamed/part_000` (heap: pages,
free-list categories, remembered sets, linear allocation areas) and
`src/unnamed/part_001` (Maglev graph builder: representation-conversion
caching, map checking, loop peeling, branch-fusion scanning, inlining
policy).  Machine addresses and byte sizes are modelled as `Nat`,
predecessor counts as `Int` (the source uses unsigned words; `Int` keeps
the arithmetic exact), object-shape maps and IR node identities as `Nat`
ids, and external helpers that live in headers outside the two source
files (the node-type lattice, map attribute queries) are abstracted as
oracle parameters, so every theorem quantifies over all of their
implementations.
-/

namespace V8

/-! ### Heap: linear allocation area (src/unnamed/part_000, lines 262-288) -/

/-- `Space::RoundSizeDownToObjectAlignment`: round `size` down to the
object-alignment granularity `align` of the owning space (the helper is
declared in a header outside the provided sources; it is an ordinary
round-down, parameterised here by the alignment). -/
def roundSizeDownToObjectAlignment (align size : Nat) : Nat :=
  size - size % align

/-- The heap/space state read by `SpaceWithLinearArea::ComputeLimit`:
whether inline allocation is globally disabled, whether this space
supports allocation observers, whether the allocation counter is active,
the counter's next-step byte distance, and the space's object alignment. -/
structure LinearAreaCtx where
  inlineAllocationDisabled : Bool
  supportsAllocationObserver : Bool
  allocationCounterIsActive : Bool
  allocationCounterNextBytes : Nat
  objectAlignment : Nat
deriving DecidableEq

/-- Shallow embedding of `SpaceWithLinearArea::ComputeLimit(start, end,
min_size)` (src/unnamed/part_000:262).  The source computes the observer
branch in `uint64_t` precisely to avoid overflow, so `Nat` arithmetic is
exact here. -/
def computeLimit (ctx : LinearAreaCtx) (start limitEnd min_size : Nat) : Nat :=
  if ctx.inlineAllocationDisabled then
    start + min_size
  else if ctx.supportsAllocationObserver && ctx.allocationCounterIsActive then
    let step := ctx.allocationCounterNextBytes
    let rounded_step := roundSizeDownToObjectAlignment ctx.objectAlignment (step - 1)
    let step_end := start + max min_size rounded_step
    min step_end limitEnd
  else
    limitEnd

/-- The limit computation as worded by the specification (for the C6
refinement claim): `start + min_size` when inline allocation is disabled;
`min(start + max(min_size, round_down_to_object_alignment(next_step - 1)),
end)` when observers are supported and active; `end` otherwise. -/
def computeLimitSpec (ctx : LinearAreaCtx) (start limitEnd min_size : Nat) : Nat :=
  if ctx.inlineAllocationDisabled then
    start + min_size
  else if ctx.supportsAllocationObserver && ctx.allocationCounterIsActive then
    min (start + max min_size
          (roundSizeDownToObjectAlignment ctx.objectAlignment
            (ctx.allocationCounterNextBytes - 1)))
        limitEnd
  else
    limitEnd

/-! ### Heap: allocation-observer invocation precondition
(src/unnamed/part_000, lines 389-415) -/

/-- The size relationship asserted at the top of
`SpaceWithLinearArea::InvokeAllocationObservers`
(src/unnamed/part_000:392-395): `size_in_bytes <= aligned_size_in_bytes`,
`aligned_size_in_bytes <= allocation_size`, and
`size_in_bytes == aligned_size_in_bytes || aligned_size_in_bytes ==
allocation_size`. -/
def invokeAllocationObserversSizeAssert
    (size_in_bytes aligned_size_in_bytes allocation_size : Nat) : Bool :=
  decide (size_in_bytes ≤ aligned_size_in_bytes) &&
  decide (aligned_size_in_bytes ≤ allocation_size) &&
  (size_in_bytes == aligned_size_in_bytes ||
   aligned_size_in_bytes == allocation_size)

/-- Exactly one of the claim's two equalities holds: the object size
equals the aligned size, or the aligned size equals the allocation size,
but not both. -/
def ExactlyOneSizeEquality (size_in_bytes aligned_size_in_bytes allocation_size : Nat) : Prop :=
  (size_in_bytes = aligned_size_in_bytes ∧ aligned_size_in_bytes ≠ allocation_size) ∨
  (size_in_bytes ≠ aligned_size_in_bytes ∧ aligned_size_in_bytes = allocation_size)

instance (a b c : Nat) : Decidable (ExactlyOneSizeEquality a b c) := by
  unfold ExactlyOneSizeEquality; infer_instance

/-! ### Heap: free-list categories (src/unnamed/part_000, lines 48-78)

A `FreeListCategory*` slot is modelled by a `Bool` (`true` = non-null
pointer), the `categories_` array by `Option (List Bool)` (`none` = the
array pointer itself is null), and the number of live (allocated, not yet
deleted) `FreeListCategory` heap objects is tracked explicitly so that
leaks are visible.  `kFirstCategory` is 0 and
`owner()->free_list()->number_of_categories()` is `last_category() + 1`,
as declared in the free-list header. -/

def kFirstCategory : Nat := 0

/-- A page restricted to the state touched by
`Page::AllocateFreeListCategories` / `Page::ReleaseFreeListCategories`. -/
structure FreeListPage where
  categories : Option (List Bool)
  liveCategoryObjects : Nat
deriving DecidableEq

/-- The allocation loop of `Page::AllocateFreeListCategories`
(src/unnamed/part_000:52-56): for `i` from the current index up to
`last`, replace the (null) slot `i` by a freshly `new`ed category. -/
def allocateCategoriesFrom (arr : List Bool) (live i last : Nat) : List Bool × Nat :=
  if i ≤ last then
    allocateCategoriesFrom (arr.set i true) (live + 1) (i + 1) last
  else
    (arr, live)
termination_by last + 1 - i

/-- `Page::AllocateFreeListCategories` (src/unnamed/part_000:48):
requires `categories_ == nullptr`; allocates a value-initialised (all
null) array of `last + 1` slots, then fills slots `kFirstCategory..last`
with new category objects. -/
def allocateFreeListCategories (last : Nat) (p : FreeListPage) : FreeListPage :=
  let init := List.replicate (last + 1) false
  let resPair := allocateCategoriesFrom init p.liveCategoryObjects kFirstCategory last
  { categories := some resPair.1, liveCategoryObjects := resPair.2 }

/-- The release loop of `Page::ReleaseFreeListCategories`
(src/unnamed/part_000:68-74): for `i` from the current index up to
`last`, delete the category at slot `i` when it is non-null and null the
slot. -/
def releaseCategoriesFrom (arr : List Bool) (live i last : Nat) : List Bool × Nat :=
  if i ≤ last then
    if arr.getD i false then
      releaseCategoriesFrom (arr.set i false) (live - 1) (i + 1) last
    else
      releaseCategoriesFrom arr live (i + 1) last
  else
    (arr, live)
termination_by last + 1 - i

/-- `Page::ReleaseFreeListCategories` (src/unnamed/part_000:66): when the
array is non-null, delete every non-null category in
`[kFirstCategory, last]`, then delete the array and null the pointer. -/
def releaseFreeListCategories (last : Nat) (p : FreeListPage) : FreeListPage :=
  match p.categories with
  | none => p
  | some arr =>
      let resPair := releaseCategoriesFrom arr p.liveCategoryObjects kFirstCategory last
      { categories := none, liveCategoryObjects := resPair.2 }

/-- The all-or-nothing free-list-category invariant: either the array
pointer is null, or every slot in `[kFirstCategory, last]` is non-null. -/
def FreeListCategoriesInvariant (last : Nat) (p : FreeListPage) : Prop :=
  p.categories = none ∨
  ∃ arr, p.categories = some arr ∧
    ∀ i, kFirstCategory ≤ i → i ≤ last → arr.getD i false = true

/-! ### Heap: old-to-new remembered-set move/merge
(src/unnamed/part_000, lines 91-116)

A `SlotSet` records a set of slot addresses in per-bucket bitmaps, so
inserting an address twice leaves a single entry; it is modelled as a
duplicate-free `List Nat`, with `none` for a null `SlotSet*`. -/

/-- Insertion into a slot set: bitmap semantics, so a present address is
not duplicated. -/
def slotSetInsert (a : Nat) (s : List Nat) : List Nat :=
  if a ∈ s then s else a :: s

/-- The page state touched by the old-to-new remembered-set handoff: the
live `slot_set_[OLD_TO_NEW]` and the staging `sweeping_slot_set_`. -/
structure RememberedSetPage where
  slotSetOldToNew : Option (List Nat)
  sweepingSlotSet : Option (List Nat)
deriving DecidableEq

/-- A fresh page: both slot-set pointers null. -/
def emptyRememberedSetPage : RememberedSetPage := ⟨none, none⟩

/-- `RememberedSet<OLD_TO_NEW>::Insert`: allocates the live slot set when
it is null and records the address in it. -/
def insertOldToNew (p : RememberedSetPage) (a : Nat) : RememberedSetPage :=
  { p with slotSetOldToNew := some (slotSetInsert a (p.slotSetOldToNew.getD [])) }

/-- `Page::MoveOldToNewRememberedSetForSweeping`
(src/unnamed/part_000:91): checks the staging slot is null, detaches the
live set into it and leaves the live slot null. -/
def moveOldToNewRememberedSetForSweeping (p : RememberedSetPage) : RememberedSetPage :=
  { slotSetOldToNew := none, sweepingSlotSet := p.slotSetOldToNew }

/-- `Page::MergeOldToNewRememberedSets` (src/unnamed/part_000:97): if no
staging set exists, do nothing; otherwise re-insert every entry of the
live set into the staging set (`RememberedSetSweeping::Insert`), release
the live set, and install the staging set as the new live set. -/
def mergeOldToNewRememberedSets (p : RememberedSetPage) : RememberedSetPage :=
  match p.sweepingSlotSet with
  | none => p
  | some sweeping =>
      match p.slotSetOldToNew with
      | some live =>
          { slotSetOldToNew :=
              some (live.foldl (fun acc a => slotSetInsert a acc) sweeping),
            sweepingSlotSet := none }
      | none =>
          { slotSetOldToNew := some sweeping, sweepingSlotSet := none }

/-- A batch of `RememberedSet<OLD_TO_NEW>::Insert` calls, in order. -/
def insertAllOldToNew (p : RememberedSetPage) (l : List Nat) : RememberedSetPage :=
  l.foldl insertOldToNew p

/-- The addresses recorded in the live OLD_TO_NEW slot set (empty when
the pointer is null). -/
def liveOldToNewSlots (p : RememberedSetPage) : List Nat :=
  p.slotSetOldToNew.getD []

/-- The claim's sweeping scenario on a fresh page: insert `pre`, detach
for sweeping, insert `during` concurrently with the simulated sweep,
then merge. -/
def sweepScenario (pre during : List Nat) : RememberedSetPage :=
  mergeOldToNewRememberedSets
    (insertAllOldToNew
      (moveOldToNewRememberedSetForSweeping
        (insertAllOldToNew emptyRememberedSetPage pre))
      during)

/-! ### Graph builder: loop-peeling predecessor bookkeeping
(src/unnamed/part_001, lines 8638-8706 and 8794-8813)

`predecessors_` is the per-bytecode-offset predecessor-count array
(modelled as a function `Nat → Int` so that the decrement/increment
arithmetic is exact) and `decremented_predecessor_offsets_` is the
vector, used as a stack, of offsets decremented while
`in_peeled_iteration_`. -/

/-- The builder state touched by the predecessor bookkeeping of loop
peeling. -/
structure PredecessorState where
  predecessors : Nat → Int
  decrementedPredecessorOffsets : List Nat

/-- The predecessor bookkeeping of
`MaglevGraphBuilder::MergeDeadIntoFrameState`
(src/unnamed/part_001:8794-8800): decrement `predecessors_[target]` and,
when inside the peeled iteration, push `target` onto
`decremented_predecessor_offsets_`. -/
def mergeDeadPredecessorUpdate (inPeeledIteration : Bool)
    (st : PredecessorState) (target : Nat) : PredecessorState :=
  { predecessors := fun o => if o = target then st.predecessors o - 1 else st.predecessors o,
    decrementedPredecessorOffsets :=
      if inPeeledIteration then st.decrementedPredecessorOffsets ++ [target]
      else st.decrementedPredecessorOffsets }

/-- The restoration loop at the start of `PeelLoop`'s post-peel reset
(src/unnamed/part_001:8657-8663): pop the decremented-offset stack, and
for each popped offset that is at or before `iterator_.current_offset()`
(the `JumpLoop` of the peeled copy), re-increment its predecessor count.
The C++ loop processes the vector from the back; `foldr` applies the
last element first, and the updates commute anyway. -/
def peelLoopRestorePredecessors (currentOffset : Nat)
    (st : PredecessorState) : PredecessorState :=
  { predecessors :=
      st.decrementedPredecessorOffsets.foldr
        (fun off p => fun o =>
          if o = off then (if off ≤ currentOffset then p o + 1 else p o) else p o)
        st.predecessors,
    decrementedPredecessorOffsets := [] }

/-! ### Graph builder: inlining policy
(src/unnamed/part_001, lines 5494-5570) -/

/-- The bytecodes of the callee as far as `ShouldInlineCall`'s
arguments-object scan is concerned: only the three creator bytecodes are
distinguished from everything else. -/
inductive InlBytecode
  | createMappedArguments
  | createUnmappedArguments
  | createRestParameter
  | otherInl
deriving DecidableEq

/-- The arguments-object scan of `ShouldInlineCall`
(src/unnamed/part_001:5529-5540): does any bytecode of the candidate
create an arguments object? -/
def usesUnsupportedArgumentsBytecode (l : List InlBytecode) : Bool :=
  l.any fun b =>
    match b with
    | .createMappedArguments => true
    | .createUnmappedArguments => true
    | .createRestParameter => true
    | .otherInl => false

/-- Everything `MaglevGraphBuilder::ShouldInlineCall` reads: graph
state, flags, and candidate properties.  `bytecodeLength` is the byte
length of the candidate's bytecode array (distinct from the number of
bytecodes in `bytecodes`), and the float comparison
`call_frequency < v8_flags.min_maglev_inlining_frequency` is abstracted
as the boolean of its outcome. -/
structure InlineCallSite where
  totalInlinedBytecodeSize : Nat
  maxMaglevInlinedBytecodeSizeCumulative : Nat
  hasFeedbackVector : Bool
  isDirectRecursion : Bool
  isInlineable : Bool
  newTargetOrGeneratorRegisterIsValid : Bool
  handlerTableSize : Nat
  bytecodes : List InlBytecode
  callFrequencyBelowThreshold : Bool
  bytecodeLength : Nat
  maxMaglevInlinedBytecodeSizeSmall : Nat
  maxMaglevInlinedBytecodeSize : Nat
  inliningDepth : Nat
  maxMaglevInlineDepth : Nat
deriving DecidableEq

/-- Shallow embedding of `MaglevGraphBuilder::ShouldInlineCall`
(src/unnamed/part_001:5494-5570), with each early `return false` in
source order. -/
def shouldInlineCall (c : InlineCallSite) : Bool :=
  if c.totalInlinedBytecodeSize > c.maxMaglevInlinedBytecodeSizeCumulative then false
  else if !c.hasFeedbackVector then false
  else if c.isDirectRecursion then false
  else if !c.isInlineable then false
  else if c.newTargetOrGeneratorRegisterIsValid then false
  else if c.handlerTableSize > 0 then false
  else if usesUnsupportedArgumentsBytecode c.bytecodes then false
  else if c.callFrequencyBelowThreshold then false
  else if c.bytecodeLength < c.maxMaglevInlinedBytecodeSizeSmall then true
  else if c.bytecodeLength > c.maxMaglevInlinedBytecodeSize then false
  else if c.inliningDepth > c.maxMaglevInlineDepth then false
  else true

/-! ### Graph builder: test/branch fusion scan
(src/unnamed/part_001, lines 1952-2080)

Bytecode offsets are modelled as indices into the bytecode list (the
scan only ever advances one bytecode at a time, so byte widths are
immaterial); `interpreter::Register` keeps its parameter flag and
index. -/

/-- An interpreter register operand. -/
structure BcRegister where
  isParameterReg : Bool
  index : Nat
deriving DecidableEq

/-- The bytecodes distinguished by `TryFindNextBranch`'s switch;
`unsupportedBc` stands for every bytecode hitting the `default` case,
and `illegalBc` is `Bytecode::kIllegal` (also what `next_bytecode()`
yields at the end of the array). -/
inductive FusionBytecode
  | mov
  | toBooleanBc
  | logicalNot
  | toBooleanLogicalNot
  | star (r : BcRegister)
  | shortStar (r : BcRegister)
  | returnBc
  | jumpIfFalse
  | jumpIfFalseConstant
  | jumpIfToBooleanFalse
  | jumpIfToBooleanFalseConstant
  | jumpIfTrue
  | jumpIfTrueConstant
  | jumpIfToBooleanTrue
  | jumpIfToBooleanTrueConstant
  | illegalBc
  | unsupportedBc
deriving DecidableEq

/-- One (possibly inlined) builder frame as read by `TryFindNextBranch`:
its bytecode array, its merge-point predicate
(`IsOffsetAMergePoint`), the out-liveness of registers per offset, the
inlining facts (`is_inline()`, whether `inlined_new_target_` is a
`RootConstant`, whether `inline_exit_offset()` is a merge point) and the
frame's current iterator offset. -/
structure FusionFrame where
  bytecodes : List FusionBytecode
  isOffsetAMergePoint : Nat → Bool
  outRegisterIsLive : Nat → Nat → Bool
  isInlineFrame : Bool
  inlinedNewTargetIsRootConstant : Bool
  inlineExitOffsetIsMergePoint : Bool
  currentOffset : Nat

/-- The outcome of the frame-local part of the scan: no branch found
(any of the bail-outs, or the scan ran off the end of the bytecode), a
fusable branch found at an offset, or a `Return` crossed while inlining
(all four crossing conditions satisfied). -/
inductive ScanOutcome
  | noBranch
  | foundBranch (off : Nat)
  | crossReturn
deriving DecidableEq

/-- The frame-local loop of `MaglevGraphBuilder::TryFindNextBranch`
(src/unnamed/part_001:1962-2079) scanning frame `fr` from offset `i`;
the fuel argument is the number of remaining bytecodes
(`fr.bytecodes.length - i`, so fuel 0 is exactly the iterator's `done()`
loop exit). -/
def scanFrameLocal (fr : FusionFrame) : Nat → Nat → ScanOutcome
  | 0, _ => .noBranch
  | fuel + 1, i =>
    if fr.isOffsetAMergePoint i then .noBranch
    else
      match fr.bytecodes.getD i .illegalBc with
      | .mov => scanFrameLocal fr fuel (i + 1)
      | .toBooleanBc => scanFrameLocal fr fuel (i + 1)
      | .logicalNot => scanFrameLocal fr fuel (i + 1)
      | .toBooleanLogicalNot => scanFrameLocal fr fuel (i + 1)
      | .star r =>
          if r.isParameterReg || fr.outRegisterIsLive i r.index then .noBranch
          else scanFrameLocal fr fuel (i + 1)
      | .shortStar r =>
          if r.isParameterReg || fr.outRegisterIsLive i r.index then .noBranch
          else scanFrameLocal fr fuel (i + 1)
      | .returnBc =>
          if !fr.isInlineFrame then .noBranch
          else if !fr.inlinedNewTargetIsRootConstant then .noBranch
          else if fr.bytecodes.getD (i + 1) .illegalBc ≠ .illegalBc
                  || fr.inlineExitOffsetIsMergePoint then .noBranch
          else .crossReturn
      | .jumpIfFalse => .foundBranch i
      | .jumpIfFalseConstant => .foundBranch i
      | .jumpIfToBooleanFalse => .foundBranch i
      | .jumpIfToBooleanFalseConstant => .foundBranch i
      | .jumpIfTrue => .foundBranch i
      | .jumpIfTrueConstant => .foundBranch i
      | .jumpIfToBooleanTrue => .foundBranch i
      | .jumpIfToBooleanTrueConstant => .foundBranch i
      | .illegalBc => .noBranch
      | .unsupportedBc => .noBranch

/-- `MaglevGraphBuilder::TryFindNextBranch`'s scan from offset `i` of
frame `fr`, with the chain of enclosing (caller) frames in `parents`,
innermost first: run the frame-local loop; on a crossed `Return`
(`DCHECK_NOT_NULL(parent_)`, then `parent_->TryFindNextBranch`) continue
in the parent frame just past the parent's current offset — the parent
scan skips its current bytecode exactly as the callee scan did. -/
def tryFindNextBranchFrom : List FusionFrame → FusionFrame → Nat → Option Nat
  | parents, fr, i =>
    match scanFrameLocal fr (fr.bytecodes.length - i) i with
    | .noBranch => none
    | .foundBranch off => some off
    | .crossReturn =>
        match parents with
        | [] => none
        | p :: ps => tryFindNextBranchFrom ps p (p.currentOffset + 1)

/-- `MaglevGraphBuilder::TryFindNextBranch` entry point: copy the
iterator, skip the current (test) bytecode, and scan. -/
def tryFindNextBranch (parents : List FusionFrame) (fr : FusionFrame) : Option Nat :=
  tryFindNextBranchFrom parents fr (fr.currentOffset + 1)

/-! ### Graph builder: map checking
(src/unnamed/part_001, lines 3311-3505)

Object-shape maps are `Nat` ids.  Map attributes (`is_stable`,
`is_migration_target`), the node-type lattice (`StaticTypeForMap`,
`IntersectType`, `IsInstanceOfNodeType`) and the lattice constants live
in headers outside the provided sources, so they are gathered in an
oracle record; every theorem below holds for all oracles. -/

/-- External map/type queries used by `KnownMapsMerger` and
`BuildCheckMaps`. -/
structure MapOracle where
  isStable : Nat → Bool
  isMigrationTarget : Nat → Bool
  staticTypeForMap : Nat → Nat
  isInstanceOfNodeType : Nat → Nat → Bool
  intersectType : Nat → Nat → Nat
  kHeapNumberType : Nat
  kSmiMapType : Nat
  kUnknownNodeType : Nat
  initialMergerType : Nat

/-- The state of the anonymous-namespace class `KnownMapsMerger`
(src/unnamed/part_001:3313-3432). -/
structure KnownMapsMerger where
  intersectSet : List Nat
  subsetFlag : Bool
  existingKnownMapsFound : Bool
  emitCheckWithMigration : Bool
  anyMapIsUnstable : Bool
  mergerNodeType : Nat

/-- `ZoneRefSet<Map>::insert`: set semantics, no duplicate entries. -/
def insertMapList (m : Nat) (l : List Nat) : List Nat :=
  if m ∈ l then l else l ++ [m]

/-- `KnownMapsMerger::InsertMap` (src/unnamed/part_001:3418-3431). -/
def mergerInsertMap (mo : MapOracle) (m : Nat) (st : KnownMapsMerger) : KnownMapsMerger :=
  let emitMig := st.emitCheckWithMigration || mo.isMigrationTarget m
  let newType0 := mo.staticTypeForMap m
  let newType :=
    if newType0 = mo.kHeapNumberType then mo.intersectType newType0 mo.kSmiMapType
    else newType0
  { st with
      emitCheckWithMigration := emitMig,
      mergerNodeType := mo.intersectType st.mergerNodeType newType,
      anyMapIsUnstable := st.anyMapIsUnstable || !mo.isStable m,
      intersectSet := insertMapList m st.intersectSet }

/-- The initial `KnownMapsMerger` field values
(src/unnamed/part_001:3409-3414). -/
def initialMerger (mo : MapOracle) : KnownMapsMerger :=
  { intersectSet := [],
    subsetFlag := true,
    existingKnownMapsFound := true,
    emitCheckWithMigration := false,
    anyMapIsUnstable := false,
    mergerNodeType := mo.initialMergerType }

/-- One step of the possible-maps loop of
`KnownMapsMerger::IntersectWithKnownNodeAspects`
(src/unnamed/part_001:3327-3345): a possible map found among the
requested maps is inserted (subject to the node-type compatibility
filter); one not found clears the subset flag. -/
def mergerStep (mo : MapOracle) (requested : List Nat) (objType : Nat)
    (st : KnownMapsMerger) (pm : Nat) : KnownMapsMerger :=
  if pm ∈ requested then
    if mo.isInstanceOfNodeType pm objType then mergerInsertMap mo pm st else st
  else
    { st with subsetFlag := false }

/-- `KnownMapsMerger::IntersectWithKnownNodeAspects`
(src/unnamed/part_001:3319-3359).  `possibleMapsKnown` is
`node_info->possible_maps_are_known()` (with a missing node-info entry
treated as unknown, exactly as in the source); `objType` is the node
info's recorded type. -/
def intersectWithKnownNodeAspects (mo : MapOracle) (requested : List Nat)
    (objType : Nat) (possibleMapsKnown : Bool) (possibleMaps : List Nat) :
    KnownMapsMerger :=
  if possibleMapsKnown then
    let st := possibleMaps.foldl (mergerStep mo requested objType) (initialMerger mo)
    if st.intersectSet = [] then { st with mergerNodeType := mo.kUnknownNodeType }
    else st
  else
    requested.foldl (fun st m => mergerInsertMap mo m st)
      { initialMerger mo with subsetFlag := false, existingKnownMapsFound := false }

/-- The nodes `BuildCheckMaps` can add to the graph. -/
inductive CheckEmitted
  | deoptNode
  | checkMapsNode
  | checkMapsWithMigrationNode
deriving DecidableEq

/-- The outcome of `BuildCheckMaps`: whether the returned `ReduceResult`
is `DoneWithAbort` (from `EmitUnconditionalDeopt`), and the nodes added,
in order. -/
structure BuildCheckMapsResult where
  isAbort : Bool
  emitted : List CheckEmitted
deriving DecidableEq

/-- The constant fast path of `BuildCheckMaps`
(src/unnamed/part_001:3440-3456): a constant object whose map is one of
the requested maps and is stable returns `Done` immediately (recording
only a stable-map dependency).  `constantMap` is the map of
`TryGetConstant(object)` when that succeeds. -/
def buildCheckMapsConstantFastPath (mo : MapOracle) (constantMap : Option Nat)
    (requested : List Nat) : Bool :=
  match constantMap with
  | some cm => decide (cm ∈ requested) && mo.isStable cm
  | none => false

/-- Shallow embedding of `MaglevGraphBuilder::BuildCheckMaps`
(src/unnamed/part_001:3436-3505), restricted to its observable result
and emitted nodes (the known-node-aspects writes at 3458-3459 and 3503
only update the side table).  `objType` is the node info's type after
`CombineType(StaticTypeForNode(...))`, and `possibleMapsKnown` /
`possibleMaps` describe the object's recorded possible-maps set. -/
def buildCheckMaps (mo : MapOracle) (constantMap : Option Nat) (objType : Nat)
    (possibleMapsKnown : Bool) (possibleMaps : List Nat)
    (requested : List Nat) : BuildCheckMapsResult :=
  if buildCheckMapsConstantFastPath mo constantMap requested then
    { isAbort := false, emitted := [] }
  else
    let merger := intersectWithKnownNodeAspects mo requested objType
      possibleMapsKnown possibleMaps
    if merger.subsetFlag then { isAbort := false, emitted := [] }
    else if merger.intersectSet = [] then
      { isAbort := true, emitted := [.deoptNode] }
    else if merger.emitCheckWithMigration then
      { isAbort := false, emitted := [.checkMapsWithMigrationNode] }
    else
      { isAbort := false, emitted := [.checkMapsNode] }

/-! ### Graph builder: representation-conversion caching
(src/unnamed/part_001, lines 1003-1045, 1244-1301, 1303-1407, and the
helpers at 3240-3274)

IR value nodes are `Nat` ids.  A builder state carries the descriptor of
every node (opcode and payload, enough to drive the conversion
functions), the known-node-aspects side table with each node's type and
"alternative" cache slots, the graph-level memo tables for
`Int32Constant` / `Float64Constant` nodes, and the list of all nodes
created so far.  Doubles are abstract: a `FloatVal` carries an identity
(`bits`, the cache key used by `GetFloat64Constant`) together with the
outcomes of the predicates the source applies to it.  The node-type
lattice (`NodeTypeIs`, `CombineType`, the `NodeType` constants) and
`GetOrCreateInfoFor`'s initial type live outside the provided sources
and are oracle parameters. -/

/-- `ValueRepresentation` (the `word64` case is unreachable in all the
embedded functions, as in the source). -/
inductive ValueRepr
  | tagged
  | int32
  | uint32
  | float64
  | holeyFloat64
  | word64
deriving DecidableEq

/-- An abstract double: `bits` is its bit-pattern identity (the
`GetFloat64Constant` cache key), `smiDouble` the outcome of
`IsSmiDouble`, `toSmiInt` the outcome of `FastD2I`/`DoubleToInt32`. -/
structure FloatVal where
  bits : Int
  smiDouble : Bool
  toSmiInt : Int
deriving DecidableEq

/-- `TaggedToFloat64ConversionType`. -/
inductive TaggedToF64
  | onlyNumber
  | numberOrOddball
deriving DecidableEq

/-- The conversion-node opcodes created by the embedded functions. -/
inductive ConvKind
  | unsafeSmiTag
  | int32ToNumber
  | uint32ToNumber
  | float64ToTagged
  | holeyFloat64ToTagged
  | unsafeSmiUntag
  | checkedSmiUntag
  | truncateUint32ToInt32
  | checkedUint32ToInt32
  | checkedTruncateFloat64ToInt32
  | changeInt32ToFloat64
  | changeUint32ToFloat64
  | checkedHoleyFloat64ToFloat64
  | holeyFloat64ToMaybeNanFloat64
  | uncheckedNumberOrOddballToFloat64 (ct : TaggedToF64)
  | checkedNumberOrOddballToFloat64 (ct : TaggedToF64)
deriving DecidableEq

/-- The `ValueRepresentation` of each conversion node's output. -/
def reprOfConvKind : ConvKind → ValueRepr
  | .unsafeSmiTag => .tagged
  | .int32ToNumber => .tagged
  | .uint32ToNumber => .tagged
  | .float64ToTagged => .tagged
  | .holeyFloat64ToTagged => .tagged
  | .unsafeSmiUntag => .int32
  | .checkedSmiUntag => .int32
  | .truncateUint32ToInt32 => .int32
  | .checkedUint32ToInt32 => .int32
  | .checkedTruncateFloat64ToInt32 => .int32
  | .changeInt32ToFloat64 => .float64
  | .changeUint32ToFloat64 => .float64
  | .checkedHoleyFloat64ToFloat64 => .float64
  | .holeyFloat64ToMaybeNanFloat64 => .float64
  | .uncheckedNumberOrOddballToFloat64 _ => .float64
  | .checkedNumberOrOddballToFloat64 _ => .float64

/-- A node descriptor: its opcode with the payload the conversion
functions inspect.  `heapConstant` is `Opcode::kConstant` (with whether
the referenced object is a HeapNumber and its numeric value);
`rootConstant` carries whether the root object is an Oddball, its
`to_number_raw` value, whether it is a HeapNumber, and its HeapNumber
value; `otherNode` is any other node, of the given representation. -/
inductive NodeDesc
  | smiConstant (v : Int)
  | int32Constant (v : Int)
  | float64Constant (v : FloatVal)
  | heapConstant (isHeapNumber : Bool) (num : FloatVal)
  | rootConstant (isOddball : Bool) (toNumberRaw : FloatVal)
      (isHeapNumber : Bool) (num : FloatVal)
  | conversion (k : ConvKind) (input : Nat)
  | otherNode (r : ValueRepr)
deriving DecidableEq

/-- `ValueNode::properties().value_representation()` per descriptor. -/
def reprOfDesc : NodeDesc → ValueRepr
  | .smiConstant _ => .tagged
  | .int32Constant _ => .int32
  | .float64Constant _ => .float64
  | .heapConstant _ _ => .tagged
  | .rootConstant _ _ _ _ => .tagged
  | .conversion k _ => reprOfConvKind k
  | .otherNode r => r

/-- The node's cached alternative representations
(`NodeInfo::alternative()`). -/
structure NodeAlternatives where
  taggedAlt : Option Nat := none
  int32Alt : Option Nat := none
  truncatedInt32ToNumberAlt : Option Nat := none
  float64Alt : Option Nat := none
deriving DecidableEq

/-- A known-node-aspects entry: recorded `NodeType` (abstract code) and
the alternative cache. -/
structure MaglevNodeInfo where
  nodeType : Nat
  alt : NodeAlternatives
deriving DecidableEq

/-- Association-list lookup (keys compared with `DecidableEq`). -/
def alookup {κ α : Type} [DecidableEq κ] (k : κ) : List (κ × α) → Option α
  | [] => none
  | (k2, v) :: rest => if k = k2 then some v else alookup k rest

/-- Association-list update/insert. -/
def aset {κ α : Type} [DecidableEq κ] (k : κ) (v : α) :
    List (κ × α) → List (κ × α)
  | [] => [(k, v)]
  | (k2, v2) :: rest => if k = k2 then (k, v) :: rest else (k2, v2) :: aset k v rest

/-- The builder state threaded through the conversion functions. -/
structure BuilderState where
  nextNodeId : Nat
  descs : List (Nat × NodeDesc)
  aspects : List (Nat × MaglevNodeInfo)
  int32Constants : List (Int × Nat)
  float64Constants : List (Int × Nat)
  createdNodes : List Nat
deriving DecidableEq

/-- The node-type-lattice operations and constants used by the
conversion functions (defined in headers outside the provided sources;
abstracted, so every theorem holds for all implementations).
`floatOfInt` is the double obtained from an integer value (used as the
`GetFloat64Constant` key for `SmiConstant`/`Int32Constant` inputs). -/
structure TypeOracle where
  nodeTypeIs : Nat → Nat → Bool
  combineType : Nat → Nat → Nat
  kSmiType : Nat
  kNumberType : Nat
  kNumberOrOddballType : Nat
  defaultTypeFor : NodeDesc → Nat
  floatOfInt : Int → FloatVal

/-- The descriptor of node `n` (total; a node absent from the
environment reads as an `otherNode .tagged`, which never happens for
allocated ids). -/
def descOf (s : BuilderState) (n : Nat) : NodeDesc :=
  (alookup n s.descs).getD (.otherNode .tagged)

/-- `value->properties().value_representation()`. -/
def reprOfNode (s : BuilderState) (n : Nat) : ValueRepr :=
  reprOfDesc (descOf s n)

/-- Create a node with a fresh id (`AddNewNode` / constant-node
creation): records the descriptor and the creation. -/
def newNode (s : BuilderState) (d : NodeDesc) : Nat × BuilderState :=
  let id := s.nextNodeId
  (id, { s with
           nextNodeId := id + 1,
           descs := aset id d s.descs,
           createdNodes := s.createdNodes ++ [id] })

/-- `AddNewNode<K>({input})` for a conversion node. -/
def addConvNode (s : BuilderState) (k : ConvKind) (input : Nat) :
    Nat × BuilderState :=
  newNode s (.conversion k input)

/-- `known_node_aspects().GetOrCreateInfoFor(value)`: return the node's
info, creating it (with the oracle's initial type and empty alternative
cache) when absent. -/
def getOrCreateInfoFor (o : TypeOracle) (s : BuilderState) (n : Nat) :
    MaglevNodeInfo × BuilderState :=
  match alookup n s.aspects with
  | some info => (info, s)
  | none =>
      let info : MaglevNodeInfo := { nodeType := o.defaultTypeFor (descOf s n), alt := {} }
      (info, { s with aspects := aset n info s.aspects })

/-- Mutate node `n`'s info in place (the C++ functions hold a
`NodeInfo*` and mutate through it). -/
def updateInfo (s : BuilderState) (n : Nat) (f : MaglevNodeInfo → MaglevNodeInfo) :
    BuilderState :=
  { s with aspects :=
      (aset n (f ((alookup n s.aspects).getD { nodeType := 0, alt := {} })) s.aspects) }

/-- `EnsureType(node, type, &old_type)`: returns whether the recorded
type already satisfies `t`, the previously recorded type, and the state
(with the type combined with `t` when it did not). -/
def ensureType (o : TypeOracle) (s : BuilderState) (n : Nat) (t : Nat) :
    Bool × Nat × BuilderState :=
  let p := getOrCreateInfoFor o s n
  if o.nodeTypeIs p.1.nodeType t then (true, p.1.nodeType, p.2)
  else (false, p.1.nodeType,
        updateInfo p.2 n fun i => { i with nodeType := o.combineType i.nodeType t })

/-- `alternative.set_tagged(AddNewNode<K>({value}))`: create the
conversion node, cache it in the tagged alternative slot, return it. -/
def cacheTagged (s : BuilderState) (n : Nat) (k : ConvKind) : Nat × BuilderState :=
  let p := addConvNode s k n
  (p.1, updateInfo p.2 n fun i =>
    { i with alt := { i.alt with taggedAlt := some p.1 } })

/-- `alternative.set_int32(node)` for an already-created node. -/
def cacheInt32Node (s : BuilderState) (n m : Nat) : Nat × BuilderState :=
  (m, updateInfo s n fun i => { i with alt := { i.alt with int32Alt := some m } })

/-- `alternative.set_int32(AddNewNode<K>({value}))`. -/
def cacheInt32 (s : BuilderState) (n : Nat) (k : ConvKind) : Nat × BuilderState :=
  let p := addConvNode s k n
  cacheInt32Node p.2 n p.1

/-- `alternative.set_float64(node)` for an already-created node. -/
def cacheFloat64Node (s : BuilderState) (n m : Nat) : Nat × BuilderState :=
  (m, updateInfo s n fun i => { i with alt := { i.alt with float64Alt := some m } })

/-- `alternative.set_float64(AddNewNode<K>({value}))`. -/
def cacheFloat64 (s : BuilderState) (n : Nat) (k : ConvKind) : Nat × BuilderState :=
  let p := addConvNode s k n
  cacheFloat64Node p.2 n p.1

/-- `GetInt32Constant(value)`: the graph-level `Int32Constant` memo
table (declared in the builder header; keyed by the int32 value). -/
def getInt32Constant (s : BuilderState) (v : Int) : Nat × BuilderState :=
  match alookup v s.int32Constants with
  | some id => (id, s)
  | none =>
      let p := newNode s (.int32Constant v)
      (p.1, { p.2 with int32Constants := aset v p.1 p.2.int32Constants })

/-- `GetFloat64Constant(value)`: the graph-level `Float64Constant` memo
table, keyed by the double's bit pattern. -/
def getFloat64Constant (s : BuilderState) (fv : FloatVal) : Nat × BuilderState :=
  match alookup fv.bits s.float64Constants with
  | some id => (id, s)
  | none =>
      let p := newNode s (.float64Constant fv)
      (p.1, { p.2 with float64Constants := aset fv.bits p.1 p.2.float64Constants })

/-- `MaglevGraphBuilder::GetTaggedValue`
(src/unnamed/part_001:1003-1045).  `RecordUseReprHintIfPhi` only tweaks
phi hints and is not modelled. -/
def getTaggedValue (o : TypeOracle) (s : BuilderState) (n : Nat) :
    Nat × BuilderState :=
  if reprOfNode s n = .tagged then (n, s)
  else
    let p := getOrCreateInfoFor o s n
    match p.1.alt.taggedAlt with
    | some alt => (alt, p.2)
    | none =>
        match reprOfNode s n with
        | .int32 =>
            if o.nodeTypeIs p.1.nodeType o.kSmiType then cacheTagged p.2 n .unsafeSmiTag
            else cacheTagged p.2 n .int32ToNumber
        | .uint32 =>
            if o.nodeTypeIs p.1.nodeType o.kSmiType then cacheTagged p.2 n .unsafeSmiTag
            else cacheTagged p.2 n .uint32ToNumber
        | .float64 => cacheTagged p.2 n .float64ToTagged
        | .holeyFloat64 => cacheTagged p.2 n .holeyFloat64ToTagged
        | _ => (n, p.2)

/-- `MaglevGraphBuilder::BuildSmiUntag` (src/unnamed/part_001:3240)
composed with the caller's `alternative.set_int32(...)`
(src/unnamed/part_001:1279). -/
def buildSmiUntagCachedInt32 (o : TypeOracle) (s : BuilderState) (n : Nat) :
    Nat × BuilderState :=
  let e := ensureType o s n o.kSmiType
  if e.1 then cacheInt32 e.2.2 n .unsafeSmiUntag
  else cacheInt32 e.2.2 n .checkedSmiUntag

/-- The post-constant part of `MaglevGraphBuilder::GetInt32`
(src/unnamed/part_001:1269-1300), reached by falling out of the constant
switch. -/
def getInt32NonConstant (o : TypeOracle) (s : BuilderState) (n : Nat) :
    Nat × BuilderState :=
  let p := getOrCreateInfoFor o s n
  match p.1.alt.int32Alt with
  | some alt => (alt, p.2)
  | none =>
      match reprOfNode s n with
      | .tagged => buildSmiUntagCachedInt32 o p.2 n
      | .uint32 =>
          if o.nodeTypeIs p.1.nodeType o.kSmiType then
            cacheInt32 p.2 n .truncateUint32ToInt32
          else cacheInt32 p.2 n .checkedUint32ToInt32
      | .float64 => cacheInt32 p.2 n .checkedTruncateFloat64ToInt32
      | .holeyFloat64 => cacheInt32 p.2 n .checkedTruncateFloat64ToInt32
      | _ => (n, p.2)

/-- `MaglevGraphBuilder::GetInt32` (src/unnamed/part_001:1244-1301). -/
def getInt32 (o : TypeOracle) (s : BuilderState) (n : Nat) :
    Nat × BuilderState :=
  if reprOfNode s n = .int32 then (n, s)
  else
    match descOf s n with
    | .smiConstant v => getInt32Constant s v
    | .float64Constant fv =>
        if fv.smiDouble then getInt32Constant s fv.toSmiInt
        else getInt32NonConstant o s n
    | _ => getInt32NonConstant o s n

/-- `MaglevGraphBuilder::BuildNumberOrOddballToFloat64`
(src/unnamed/part_001:3260-3274): may create two nodes (`UnsafeSmiUntag`
then `ChangeInt32ToFloat64`) in the known-Smi case. -/
def buildNumberOrOddballToFloat64 (o : TypeOracle) (s : BuilderState) (n : Nat)
    (ct : TaggedToF64) : Nat × BuilderState :=
  let desired := match ct with
    | .onlyNumber => o.kNumberType
    | .numberOrOddball => o.kNumberOrOddballType
  let e := ensureType o s n desired
  if e.1 then
    if e.2.1 = o.kSmiType then
      let u := addConvNode e.2.2 .unsafeSmiUntag n
      addConvNode u.2 .changeInt32ToFloat64 u.1
    else addConvNode e.2.2 (.uncheckedNumberOrOddballToFloat64 ct) n
  else addConvNode e.2.2 (.checkedNumberOrOddballToFloat64 ct) n

/-- `ToNumberHint`. -/
inductive ToNumberHint
  | assumeSmi
  | disallowToNumber
  | assumeNumber
  | assumeNumberOrOddball
deriving DecidableEq

/-- The recorded type of node `n` (reading through the aspects table,
as the C++ `node_info->type()` does after mutations). -/
def currentTypeOf (s : BuilderState) (n : Nat) : Nat :=
  ((alookup n s.aspects).getD { nodeType := 0, alt := {} }).nodeType

/-- The post-constant part of
`MaglevGraphBuilder::GetFloat64ForToNumber`
(src/unnamed/part_001:1348-1406), abstracted over the recursive
re-entry `recur` used by the `kAssumeSmi` case
(`GetFloat64(GetInt32(value))`, whose inner hint is
`kDisallowToNumber`). -/
def getFloat64NonConstantWith
    (recur : BuilderState → Nat → ToNumberHint → Nat × BuilderState)
    (o : TypeOracle) (s : BuilderState)
    (n : Nat) (hint : ToNumberHint) : Nat × BuilderState :=
  let p := getOrCreateInfoFor o s n
  match p.1.alt.float64Alt with
  | some alt => (alt, p.2)
  | none =>
      match reprOfNode s n with
      | .tagged =>
          match hint with
          | .assumeSmi =>
              let q := getInt32 o p.2 n
              recur q.2 q.1 .disallowToNumber
          | .disallowToNumber =>
              let q := buildNumberOrOddballToFloat64 o p.2 n .onlyNumber
              cacheFloat64Node q.2 n q.1
          | .assumeNumber =>
              let q := buildNumberOrOddballToFloat64 o p.2 n .onlyNumber
              cacheFloat64Node q.2 n q.1
          | .assumeNumberOrOddball =>
              let q := buildNumberOrOddballToFloat64 o p.2 n .numberOrOddball
              if o.nodeTypeIs (currentTypeOf q.2 n) o.kNumberType then
                cacheFloat64Node q.2 n q.1
              else (q.1, q.2)
      | .int32 => cacheFloat64 p.2 n .changeInt32ToFloat64
      | .uint32 => cacheFloat64 p.2 n .changeUint32ToFloat64
      | .holeyFloat64 =>
          match hint with
          | .assumeNumberOrOddball => addConvNode p.2 .holeyFloat64ToMaybeNanFloat64 n
          | _ => cacheFloat64 p.2 n .checkedHoleyFloat64ToFloat64
      | _ => (n, p.2)

/-- `MaglevGraphBuilder::GetFloat64ForToNumber`
(src/unnamed/part_001:1309-1407).  The `fuel` bounds the
`GetFloat64(GetInt32(value))` recursion of the `kAssumeSmi` case (one
level deep in the source, since the inner call's hint is
`kDisallowToNumber`). -/
def getFloat64ForToNumber (o : TypeOracle) (fuel : Nat) (s : BuilderState)
    (n : Nat) (hint : ToNumberHint) : Nat × BuilderState :=
  match fuel with
  | 0 => (n, s)
  | fuel + 1 =>
    if reprOfNode s n = .float64 then (n, s)
    else
      match descOf s n with
      | .heapConstant isHeapNumber num =>
          if isHeapNumber then getFloat64Constant s num
          else getFloat64NonConstantWith
            (fun s2 n2 h2 => getFloat64ForToNumber o fuel s2 n2 h2) o s n hint
      | .smiConstant v => getFloat64Constant s (o.floatOfInt v)
      | .int32Constant v => getFloat64Constant s (o.floatOfInt v)
      | .rootConstant isOddball toNumberRaw isHeapNumber num =>
          if hint ≠ .disallowToNumber && isOddball then
            getFloat64Constant s toNumberRaw
          else if isHeapNumber then getFloat64Constant s num
          else getFloat64NonConstantWith
            (fun s2 n2 h2 => getFloat64ForToNumber o fuel s2 n2 h2) o s n hint
      | _ => getFloat64NonConstantWith
            (fun s2 n2 h2 => getFloat64ForToNumber o fuel s2 n2 h2) o s n hint

/-- The post-constant part at a given remaining `fuel`
(`getFloat64NonConstantWith` with the re-entry instantiated at
`getFloat64ForToNumber`). -/
def getFloat64NonConstant (o : TypeOracle) (fuel : Nat) (s : BuilderState)
    (n : Nat) (hint : ToNumberHint) : Nat × BuilderState :=
  getFloat64NonConstantWith
    (fun s2 n2 h2 => getFloat64ForToNumber o fuel s2 n2 h2) o s n hint

/-- `MaglevGraphBuilder::GetFloat64` (src/unnamed/part_001:1303-1307):
`GetFloat64ForToNumber(value, ToNumberHint::kDisallowToNumber)`.  The
fuel 2 covers the deepest possible call chain (the `kAssumeSmi` inner
call never recurses further). -/
def getFloat64 (o : TypeOracle) (s : BuilderState) (n : Nat) :
    Nat × BuilderState :=
  getFloat64ForToNumber o 2 s n .disallowToNumber

/-- A concrete node-type oracle (an arbitrary instantiation of the
abstract lattice operations, used to evaluate the conversion functions
on concrete states). -/
def oracleW : TypeOracle :=
  { nodeTypeIs := fun _ _ => false
    combineType := fun a _ => a
    kSmiType := 0
    kNumberType := 1
    kNumberOrOddballType := 2
    defaultTypeFor := fun _ => 0
    floatOfInt := fun v => { bits := v, smiDouble := true, toSmiInt := v } }

/-- A concrete one-node builder state: node 0 is an `int32`-represented
value node. -/
def stateW : BuilderState :=
  { nextNodeId := 1
    descs := [(0, NodeDesc.otherNode ValueRepr.int32)]
    aspects := []
    int32Constants := []
    float64Constants := []
    createdNodes := [] }

end V8

namespace V8

/-! ## Helper lemmas (heap) -/

theorem slotSetInsert_mem (a b : Nat) (s : List Nat) :
    a ∈ slotSetInsert b s ↔ a = b ∨ a ∈ s := by
  unfold slotSetInsert
  split
  · constructor
    · exact fun h => Or.inr h
    · rintro (rfl | h)
      · assumption
      · assumption
  · simp [List.mem_cons]

theorem slotSetInsert_nodup (b : Nat) (s : List Nat) (h : s.Nodup) :
    (slotSetInsert b s).Nodup := by
  unfold slotSetInsert
  split
  · exact h
  · exact List.nodup_cons.mpr ⟨by assumption, h⟩

theorem foldl_slotSetInsert_mem (a : Nat) (l s : List Nat) :
    a ∈ l.foldl (fun acc x => slotSetInsert x acc) s ↔ a ∈ s ∨ a ∈ l := by
  induction l generalizing s with
  | nil => simp
  | cons x xs ih =>
      simp only [List.foldl_cons, ih, slotSetInsert_mem, List.mem_cons]
      tauto

theorem foldl_slotSetInsert_nodup (l s : List Nat) (h : s.Nodup) :
    (l.foldl (fun acc x => slotSetInsert x acc) s).Nodup := by
  induction l generalizing s with
  | nil => exact h
  | cons x xs ih => exact ih _ (slotSetInsert_nodup x s h)

theorem insertAllOldToNew_sweeping (p : RememberedSetPage) (l : List Nat) :
    (insertAllOldToNew p l).sweepingSlotSet = p.sweepingSlotSet := by
  unfold insertAllOldToNew
  induction l generalizing p with
  | nil => rfl
  | cons x xs ih => simpa [insertOldToNew] using ih { p with
      slotSetOldToNew := some (slotSetInsert x (p.slotSetOldToNew.getD [])) }

theorem insertAllOldToNew_mem (p : RememberedSetPage) (l : List Nat) (a : Nat) :
    a ∈ liveOldToNewSlots (insertAllOldToNew p l) ↔
      a ∈ liveOldToNewSlots p ∨ a ∈ l := by
  unfold insertAllOldToNew
  induction l generalizing p with
  | nil => simp
  | cons x xs ih =>
      simp only [List.foldl_cons, List.mem_cons]
      rw [show (insertOldToNew p x) = { p with
            slotSetOldToNew := some (slotSetInsert x (p.slotSetOldToNew.getD [])) } from rfl]
      rw [ih]
      simp only [liveOldToNewSlots, Option.getD_some, slotSetInsert_mem]
      tauto

theorem insertAllOldToNew_nodup (p : RememberedSetPage) (l : List Nat)
    (h : (liveOldToNewSlots p).Nodup) :
    (liveOldToNewSlots (insertAllOldToNew p l)).Nodup := by
  unfold insertAllOldToNew
  induction l generalizing p with
  | nil => exact h
  | cons x xs ih =>
      simp only [List.foldl_cons]
      exact ih _ (by
        simpa [liveOldToNewSlots, insertOldToNew] using
          slotSetInsert_nodup x _ h)

theorem list_getD_set_self {α : Type} (l : List α) (i : Nat) (a d : α)
    (h : i < l.length) : (l.set i a).getD i d = a := by
  simp [List.getD_eq_getElem?_getD, List.getElem?_set_eq_of_lt a h]

theorem list_getD_set_ne {α : Type} (l : List α) (i j : Nat) (a d : α)
    (h : j ≠ i) : (l.set i a).getD j d = l.getD j d := by
  simp [List.getD_eq_getElem?_getD, List.getElem?_set_ne (by omega : i ≠ j)]

theorem allocateCategoriesFrom_spec (last : Nat) :
    ∀ n i arr live, last + 1 - i = n →
      (allocateCategoriesFrom arr live i last).2 = live + n ∧
      (allocateCategoriesFrom arr live i last).1.length = arr.length ∧
      (∀ j : Nat, i ≤ j → j ≤ last → j < arr.length →
        (allocateCategoriesFrom arr live i last).1.getD j false = true) ∧
      (∀ j : Nat, (j < i ∨ last < j) →
        (allocateCategoriesFrom arr live i last).1.getD j false = arr.getD j false) := by
  intro n
  induction n with
  | zero =>
      intro i arr live h
      unfold allocateCategoriesFrom
      rw [if_neg (by omega)]
      refine ⟨by simp, rfl, ?_, ?_⟩
      · intro j h1 h2 _
        exact absurd h (by omega)
      · intro j _
        rfl
  | succ k ih =>
      intro i arr live h
      unfold allocateCategoriesFrom
      rw [if_pos (by omega)]
      obtain ⟨hc, hlen, hset, hkeep⟩ := ih (i + 1) (arr.set i true) (live + 1) (by omega)
      refine ⟨by rw [hc]; omega, by rw [hlen]; simp, ?_, ?_⟩
      · intro j h1 h2 h3
        rcases Nat.eq_or_lt_of_le h1 with heq | hlt
        · subst heq
          rw [hkeep i (Or.inl (by omega))]
          exact list_getD_set_self arr i true false h3
        · exact hset j (by omega) h2 (by simpa using h3)
      · intro j hj
        rw [hkeep j (by omega)]
        exact list_getD_set_ne arr i j true false (by omega)

theorem releaseCategoriesFrom_count (last : Nat) :
    ∀ n i arr live, last + 1 - i = n →
      (∀ j : Nat, i ≤ j → j ≤ last → arr.getD j false = true) →
      (releaseCategoriesFrom arr live i last).2 = live - n := by
  intro n
  induction n with
  | zero =>
      intro i arr live h _
      unfold releaseCategoriesFrom
      rw [if_neg (by omega)]
      simp
  | succ k ih =>
      intro i arr live h hall
      unfold releaseCategoriesFrom
      rw [if_pos (by omega)]
      rw [if_pos (hall i (Nat.le_refl i) (by omega))]
      rw [ih (i + 1) (arr.set i false) (live - 1) (by omega) ?_]
      · omega
      · intro j h1 h2
        rw [list_getD_set_ne arr i j false false (by omega)]
        exact hall j (by omega) h2

/-! ## Claim theorems -/

/-- Claim C2: on a page, for any slot insertions `pre` before
`MoveOldToNewRememberedSetForSweeping` and any insertions `during`
between that call and `MergeOldToNewRememberedSets`, the move's
`CHECK_NULL(sweeping_slot_set_)` holds, and after the merge the live
OLD_TO_NEW slot set contains exactly the union of `pre` and `during`
with no entry lost and none duplicated, and `sweeping_slot_set_` is null
again. -/
theorem claim_C2_remembered_set_merge (pre during : List Nat) :
    (insertAllOldToNew emptyRememberedSetPage pre).sweepingSlotSet = none ∧
    (∀ a, a ∈ liveOldToNewSlots (sweepScenario pre during) ↔ a ∈ pre ∨ a ∈ during) ∧
    (liveOldToNewSlots (sweepScenario pre during)).Nodup ∧
    (sweepScenario pre during).sweepingSlotSet = none := by
  have hpre_mem : ∀ a, a ∈ liveOldToNewSlots (insertAllOldToNew emptyRememberedSetPage pre)
      ↔ a ∈ pre := by
    intro a
    rw [insertAllOldToNew_mem]
    simp [liveOldToNewSlots, emptyRememberedSetPage]
  have hpre_nodup : (liveOldToNewSlots (insertAllOldToNew emptyRememberedSetPage pre)).Nodup :=
    insertAllOldToNew_nodup _ _ (by simp [liveOldToNewSlots, emptyRememberedSetPage])
  refine ⟨insertAllOldToNew_sweeping _ _, ?_⟩
  unfold sweepScenario
  set p1 := insertAllOldToNew emptyRememberedSetPage pre with hp1
  have hmove : moveOldToNewRememberedSetForSweeping p1 = ⟨none, p1.slotSetOldToNew⟩ := rfl
  rw [hmove]
  set p3 := insertAllOldToNew ⟨none, p1.slotSetOldToNew⟩ during with hp3
  have h3sweep : p3.sweepingSlotSet = p1.slotSetOldToNew := insertAllOldToNew_sweeping _ _
  have h3mem : ∀ a, a ∈ liveOldToNewSlots p3 ↔ a ∈ during := by
    intro a
    rw [hp3, insertAllOldToNew_mem]
    simp [liveOldToNewSlots]
  have h3nodup : (liveOldToNewSlots p3).Nodup :=
    insertAllOldToNew_nodup _ _ (by simp [liveOldToNewSlots])
  cases hsw : p1.slotSetOldToNew with
  | none =>
      have hres : mergeOldToNewRememberedSets p3 = p3 := by
        unfold mergeOldToNewRememberedSets
        rw [h3sweep, hsw]
      rw [hres]
      have hpre_empty : ∀ a, a ∈ pre → False := by
        intro a ha
        have hmem := (hpre_mem a).mpr ha
        simp [liveOldToNewSlots, hsw] at hmem
      refine ⟨?_, h3nodup, h3sweep.trans hsw⟩
      intro a
      rw [h3mem a]
      constructor
      · exact Or.inr
      · rintro (ha | ha)
        · exact absurd ha (hpre_empty a)
        · exact ha
  | some sw =>
      have hswmem : ∀ a, a ∈ sw ↔ a ∈ pre := by
        intro a
        have hmem := hpre_mem a
        simpa [liveOldToNewSlots, hsw] using hmem
      have hswnodup : sw.Nodup := by
        have hnd := hpre_nodup
        simpa [liveOldToNewSlots, hsw] using hnd
      cases hlv : p3.slotSetOldToNew with
      | none =>
          have hres : mergeOldToNewRememberedSets p3 = ⟨some sw, none⟩ := by
            unfold mergeOldToNewRememberedSets
            rw [h3sweep, hsw, hlv]
          rw [hres]
          have hdur_empty : ∀ a, a ∈ during → False := by
            intro a ha
            have hmem := (h3mem a).mpr ha
            simp [liveOldToNewSlots, hlv] at hmem
          refine ⟨?_, by simpa [liveOldToNewSlots] using hswnodup, rfl⟩
          intro a
          simp only [liveOldToNewSlots, Option.getD_some]
          rw [hswmem a]
          constructor
          · exact Or.inl
          · rintro (ha | ha)
            · exact ha
            · exact absurd ha (hdur_empty a)
      | some live =>
          have hres : mergeOldToNewRememberedSets p3 =
              ⟨some (live.foldl (fun acc a => slotSetInsert a acc) sw), none⟩ := by
            unfold mergeOldToNewRememberedSets
            rw [h3sweep, hsw, hlv]
          rw [hres]
          have hlivemem : ∀ a, a ∈ live ↔ a ∈ during := by
            intro a
            have hmem := h3mem a
            simpa [liveOldToNewSlots, hlv] using hmem
          refine ⟨?_, ?_, rfl⟩
          · intro a
            simp only [liveOldToNewSlots, Option.getD_some]
            rw [foldl_slotSetInsert_mem, hswmem, hlivemem]
          · simp only [liveOldToNewSlots, Option.getD_some]
            exact foldl_slotSetInsert_nodup _ _ hswnodup

/-- Claim C6: for every `start`, `end`, `min_size` with
`end - start ≥ min_size`: with inline allocation disabled `ComputeLimit`
returns exactly `start + min_size`; with allocation observers supported
and active it returns
`min(start + max(min_size, round_down_to_object_alignment(next_step - 1)), end)`;
otherwise it returns `end` — the source computation coincides with the
spec-worded formula. -/
theorem claim_C6_compute_limit_formula (ctx : LinearAreaCtx)
    (start limitEnd min_size : Nat) (h : start + min_size ≤ limitEnd) :
    computeLimit ctx start limitEnd min_size =
      computeLimitSpec ctx start limitEnd min_size := rfl

/-- Witness for C6 at a concrete input. -/
theorem claim_C6_compute_limit_formula_witness :
    computeLimit ⟨false, true, true, 32, 8⟩ 100 200 50 =
      computeLimitSpec ⟨false, true, true, 32, 8⟩ 100 200 50 :=
  claim_C6_compute_limit_formula ⟨false, true, true, 32, 8⟩ 100 200 50 (by decide)

/-- Claim C7 counterexample: with observers supported and active,
`next_step = 1`, object alignment 8, `start = 0`, `end = 100`,
`min_size = 16`, `ComputeLimit` returns 16, which exceeds
`start + next_step` rounded to object alignment whether the rounding is
taken downward (0) or upward (8): the claimed observer-mode bound fails
whenever `min_size` exceeds the rounded step. -/
theorem claim_C7_counterexample :
    computeLimit ⟨false, true, true, 1, 8⟩ 0 100 16 = 16 ∧
    ¬ (computeLimit ⟨false, true, true, 1, 8⟩ 0 100 16 ≤
        0 + roundSizeDownToObjectAlignment 8 1) ∧
    ¬ (computeLimit ⟨false, true, true, 1, 8⟩ 0 100 16 ≤ 0 + 8) := by
  decide

/-- Claim C7 (amended): for every `start`, `end`, `min_size` with
`end - start ≥ min_size`, `ComputeLimit` returns a value in
`[start + min_size, end]`; and when allocation observers are supported
and active the returned limit never exceeds
`max(start + min_size, start + round_down_to_object_alignment(next_step - 1))`
(the claimed bound `start + next_step` rounded to alignment holds only
when it is at least `start + min_size`). -/
theorem claim_C7_compute_limit_range (ctx : LinearAreaCtx)
    (start limitEnd min_size : Nat) (h : start + min_size ≤ limitEnd) :
    (start + min_size ≤ computeLimit ctx start limitEnd min_size ∧
      computeLimit ctx start limitEnd min_size ≤ limitEnd) ∧
    (ctx.inlineAllocationDisabled = false →
      ctx.supportsAllocationObserver = true →
      ctx.allocationCounterIsActive = true →
      computeLimit ctx start limitEnd min_size ≤
        max (start + min_size)
          (start + roundSizeDownToObjectAlignment ctx.objectAlignment
            (ctx.allocationCounterNextBytes - 1))) := by
  simp only [computeLimit]
  split_ifs with h1 h2
  · refine ⟨⟨Nat.le_refl _, h⟩, ?_⟩
    intro hd
    rw [hd] at h1
    exact absurd h1 (by simp)
  · generalize roundSizeDownToObjectAlignment ctx.objectAlignment
      (ctx.allocationCounterNextBytes - 1) = r
    omega
  · refine ⟨⟨h, Nat.le_refl _⟩, ?_⟩
    intro _ hs ha
    rw [hs, ha] at h2
    exact absurd rfl h2

/-- Witness for the amended C7 at a concrete input. -/
theorem claim_C7_compute_limit_range_witness :
    (0 + 8 ≤ computeLimit ⟨false, true, true, 32, 8⟩ 0 100 8 ∧
      computeLimit ⟨false, true, true, 32, 8⟩ 0 100 8 ≤ 100) ∧
    ((⟨false, true, true, 32, 8⟩ : LinearAreaCtx).inlineAllocationDisabled = false →
      (⟨false, true, true, 32, 8⟩ : LinearAreaCtx).supportsAllocationObserver = true →
      (⟨false, true, true, 32, 8⟩ : LinearAreaCtx).allocationCounterIsActive = true →
      computeLimit ⟨false, true, true, 32, 8⟩ 0 100 8 ≤
        max (0 + 8) (0 + roundSizeDownToObjectAlignment 8 (32 - 1))) :=
  claim_C7_compute_limit_range ⟨false, true, true, 32, 8⟩ 0 100 8 (by decide)

/-- Claim C8: starting from a page with a null category array,
`AllocateFreeListCategories` populates every slot in
`[kFirstCategory, last]` (exactly `last - kFirstCategory + 1` category
objects allocated), a subsequent `ReleaseFreeListCategories` returns the
page to the all-null state with every allocated category freed, and the
all-null-or-fully-populated invariant holds before, between, and
after. -/
theorem claim_C8_free_list_categories (last : Nat) (p : FreeListPage)
    (hnull : p.categories = none) :
    FreeListCategoriesInvariant last p ∧
    FreeListCategoriesInvariant last (allocateFreeListCategories last p) ∧
    (∃ arr, (allocateFreeListCategories last p).categories = some arr ∧
      arr.length = last + 1) ∧
    (allocateFreeListCategories last p).liveCategoryObjects =
      p.liveCategoryObjects + (last - kFirstCategory + 1) ∧
    (releaseFreeListCategories last (allocateFreeListCategories last p)).categories = none ∧
    (releaseFreeListCategories last (allocateFreeListCategories last p)).liveCategoryObjects =
      p.liveCategoryObjects ∧
    FreeListCategoriesInvariant last
      (releaseFreeListCategories last (allocateFreeListCategories last p)) := by
  obtain ⟨hc, hlen, hset, -⟩ :=
    allocateCategoriesFrom_spec last (last + 1) kFirstCategory
      (List.replicate (last + 1) false) p.liveCategoryObjects
      (by simp [kFirstCategory])
  have hlen2 : (allocateCategoriesFrom (List.replicate (last + 1) false)
      p.liveCategoryObjects kFirstCategory last).1.length = last + 1 := by
    rw [hlen]
    simp
  have hfull : ∀ j : Nat, kFirstCategory ≤ j → j ≤ last →
      (allocateCategoriesFrom (List.replicate (last + 1) false)
        p.liveCategoryObjects kFirstCategory last).1.getD j false = true := by
    intro j h1 h2
    exact hset j h1 h2 (by simp; omega)
  have halloc : allocateFreeListCategories last p =
      { categories := some (allocateCategoriesFrom (List.replicate (last + 1) false)
          p.liveCategoryObjects kFirstCategory last).1,
        liveCategoryObjects := (allocateCategoriesFrom (List.replicate (last + 1) false)
          p.liveCategoryObjects kFirstCategory last).2 } := rfl
  have hrel : (releaseFreeListCategories last (allocateFreeListCategories last p)) =
      { categories := none,
        liveCategoryObjects := (releaseCategoriesFrom
          (allocateCategoriesFrom (List.replicate (last + 1) false)
            p.liveCategoryObjects kFirstCategory last).1
          (allocateCategoriesFrom (List.replicate (last + 1) false)
            p.liveCategoryObjects kFirstCategory last).2
          kFirstCategory last).2 } := by
    rw [halloc]
    rfl
  refine ⟨Or.inl hnull, ?_, ?_, ?_, ?_, ?_, ?_⟩
  · rw [halloc]
    exact Or.inr ⟨_, rfl, hfull⟩
  · rw [halloc]
    exact ⟨_, rfl, hlen2⟩
  · rw [halloc]
    simp only [kFirstCategory] at hc ⊢
    omega
  · rw [hrel]
  · rw [hrel]
    simp only [releaseCategoriesFrom_count last (last + 1) kFirstCategory _ _
      (by simp [kFirstCategory]) hfull, hc]
    omega
  · rw [hrel]
    exact Or.inl rfl

/-- Witness for C8 at a concrete input. -/
theorem claim_C8_free_list_categories_witness :
    FreeListCategoriesInvariant 2 (⟨none, 0⟩ : FreeListPage) ∧
    FreeListCategoriesInvariant 2 (allocateFreeListCategories 2 ⟨none, 0⟩) ∧
    (∃ arr, (allocateFreeListCategories 2 ⟨none, 0⟩).categories = some arr ∧
      arr.length = 2 + 1) ∧
    (allocateFreeListCategories 2 ⟨none, 0⟩).liveCategoryObjects =
      (0 : Nat) + (2 - kFirstCategory + 1) ∧
    (releaseFreeListCategories 2 (allocateFreeListCategories 2 ⟨none, 0⟩)).categories = none ∧
    (releaseFreeListCategories 2 (allocateFreeListCategories 2 ⟨none, 0⟩)).liveCategoryObjects =
      (0 : Nat) ∧
    FreeListCategoriesInvariant 2
      (releaseFreeListCategories 2 (allocateFreeListCategories 2 ⟨none, 0⟩)) :=
  claim_C8_free_list_categories 2 ⟨none, 0⟩ rfl

/-- Claim C9 counterexample: the assertion at the top of
`InvokeAllocationObservers` accepts
`size_in_bytes = aligned_size_in_bytes = allocation_size = 8`, where
both equalities hold simultaneously, so the asserted precondition is not
that exactly one of the two equalities holds. -/
theorem claim_C9_counterexample :
    invokeAllocationObserversSizeAssert 8 8 8 = true ∧
    ¬ ExactlyOneSizeEquality 8 8 8 := by
  decide

/-- Claim C9 (amended): the precondition asserted by
`InvokeAllocationObservers` is that at least one of the two equalities
holds — the object size equals the aligned size, or the aligned size
equals the allocation size — together with the two size orderings;
equivalently, the double-padding combination where both equalities fail
is never valid. -/
theorem claim_C9_size_assert (a b c : Nat) :
    (invokeAllocationObserversSizeAssert a b c = true ↔
      (a ≤ b ∧ b ≤ c ∧ (a = b ∨ b = c))) ∧
    (invokeAllocationObserversSizeAssert a b c = true → ¬ (a ≠ b ∧ b ≠ c)) := by
  constructor
  · unfold invokeAllocationObserversSizeAssert
    simp only [Bool.and_eq_true, Bool.or_eq_true, decide_eq_true_eq, beq_iff_eq]
    tauto
  · intro hq hcontra
    unfold invokeAllocationObserversSizeAssert at hq
    simp only [Bool.and_eq_true, Bool.or_eq_true, decide_eq_true_eq, beq_iff_eq] at hq
    tauto

/-- Witness for the amended C9 at a concrete input. -/
theorem claim_C9_size_assert_witness :
    (invokeAllocationObserversSizeAssert 8 8 16 = true ↔
      ((8 : Nat) ≤ 8 ∧ (8 : Nat) ≤ 16 ∧ ((8 : Nat) = 8 ∨ (8 : Nat) = 16))) ∧
    (invokeAllocationObserversSizeAssert 8 8 16 = true →
      ¬ ((8 : Nat) ≠ 8 ∧ (8 : Nat) ≠ 16)) :=
  claim_C9_size_assert 8 8 16

theorem foldl_mergeDead_predecessors (targets : List Nat) :
    ∀ (preds0 : Nat → Int) (d0 : List Nat) (off : Nat),
      (targets.foldl (mergeDeadPredecessorUpdate true) ⟨preds0, d0⟩).predecessors off =
        preds0 off - targets.count off := by
  induction targets with
  | nil => intro preds0 d0 off; simp
  | cons t ts ih =>
      intro preds0 d0 off
      simp only [List.foldl_cons]
      rw [show mergeDeadPredecessorUpdate true ⟨preds0, d0⟩ t =
        ⟨fun o => if o = t then preds0 o - 1 else preds0 o,
         d0 ++ [t]⟩ from rfl]
      rw [ih]
      by_cases hot : off = t
      · subst hot
        simp [List.count_cons]
        omega
      · simp [List.count_cons, hot]

theorem foldl_mergeDead_offsets (targets : List Nat) :
    ∀ (preds0 : Nat → Int) (d0 : List Nat),
      (targets.foldl (mergeDeadPredecessorUpdate true)
        ⟨preds0, d0⟩).decrementedPredecessorOffsets = d0 ++ targets := by
  induction targets with
  | nil => intro preds0 d0; simp
  | cons t ts ih =>
      intro preds0 d0
      simp only [List.foldl_cons]
      rw [show mergeDeadPredecessorUpdate true ⟨preds0, d0⟩ t =
        ⟨fun o => if o = t then preds0 o - 1 else preds0 o,
         d0 ++ [t]⟩ from rfl]
      rw [ih]
      simp

theorem restore_foldr_spec (current : Nat) (l : List Nat) :
    ∀ (base : Nat → Int) (off : Nat),
      (l.foldr (fun of p => fun o =>
          if o = of then (if of ≤ current then p o + 1 else p o) else p o) base) off =
        base off + (if off ≤ current then (l.count off : Int) else 0) := by
  induction l with
  | nil => intro base off; simp
  | cons x xs ih =>
      intro base off
      simp only [List.foldr_cons]
      by_cases hox : off = x
      · subst hox
        rw [if_pos rfl]
        by_cases hc : off ≤ current
        · rw [if_pos hc, ih, if_pos hc, if_pos hc]
          simp [List.count_cons]
          omega
        · rw [if_neg hc, ih, if_neg hc, if_neg hc]
      · rw [if_neg hox, ih]
        by_cases hc : off ≤ current
        · rw [if_pos hc, if_pos hc]
          simp [List.count_cons, hox]
        · rw [if_neg hc, if_neg hc]

/-- Claim C4 counterexample: start all predecessor counts at 2, perform
peeled-pass dead-merges against offsets 5 and 12, and run `PeelLoop`'s
restoration with the peeled copy's `JumpLoop` at offset 10.  The code
restores offset 5 (at or before the current position) back to 2 and
leaves offset 12 (beyond it) at 1 — the opposite of the claim, which
predicts offset 12 restored to 2 and offset 5 left at 1. -/
theorem claim_C4_counterexample :
    ¬ (((peelLoopRestorePredecessors 10
          (mergeDeadPredecessorUpdate true
            (mergeDeadPredecessorUpdate true ⟨fun _ => 2, []⟩ 5) 12)).predecessors 12 = 2) ∧
       ((peelLoopRestorePredecessors 10
          (mergeDeadPredecessorUpdate true
            (mergeDeadPredecessorUpdate true ⟨fun _ => 2, []⟩ 5) 12)).predecessors 5 = 1)) := by
  decide

/-- Claim C4 (amended): after the peeled copy reaches its `JumpLoop`
(and before the builder rebuilds the loop body), every offset whose
predecessor count was decremented during the peeled pass is restored to
its pre-peel value if it lies at or before the current position (the
peeled copy's `JumpLoop` offset), and is not restored — it keeps one
decrement per dead-merge — if it lies beyond it. -/
theorem claim_C4_peel_restore (preds0 : Nat → Int) (targets : List Nat)
    (current off : Nat) :
    (off ≤ current →
      (peelLoopRestorePredecessors current
        (targets.foldl (mergeDeadPredecessorUpdate true) ⟨preds0, []⟩)).predecessors off =
        preds0 off) ∧
    (current < off →
      (peelLoopRestorePredecessors current
        (targets.foldl (mergeDeadPredecessorUpdate true) ⟨preds0, []⟩)).predecessors off =
        preds0 off - targets.count off) := by
  have hoffs := foldl_mergeDead_offsets targets preds0 []
  have hpred := foldl_mergeDead_predecessors targets preds0 [] off
  constructor
  · intro hle
    simp only [peelLoopRestorePredecessors, hoffs, List.nil_append]
    rw [restore_foldr_spec, hpred, if_pos hle]
    omega
  · intro hgt
    simp only [peelLoopRestorePredecessors, hoffs, List.nil_append]
    rw [restore_foldr_spec, hpred, if_neg (by omega)]
    omega

/-- Witness for the amended C4 at a concrete input. -/
theorem claim_C4_peel_restore_witness :
    ((4 : Nat) ≤ 4 →
      (peelLoopRestorePredecessors 4
        ([4, 9].foldl (mergeDeadPredecessorUpdate true)
          ⟨fun _ => 3, []⟩)).predecessors 4 = 3) ∧
    ((4 : Nat) < 4 →
      (peelLoopRestorePredecessors 4
        ([4, 9].foldl (mergeDeadPredecessorUpdate true)
          ⟨fun _ => 3, []⟩)).predecessors 4 = 3 - [4, 9].count 4) :=
  claim_C4_peel_restore (fun _ => 3) [4, 9] 4 4

/-- Claim C10: a call candidate that passes `ShouldInlineCall`'s earlier
rejection checks (cumulative inlined-bytecode budget, feedback-vector
presence, direct recursion, inlineability, no new-target/generator
register, no exception handlers, no arguments-object bytecodes, call
frequency threshold) and whose bytecode length is below
`max_maglev_inlined_bytecode_size_small` is accepted at every inlining
depth; the depth limit rejects only candidates at or above the small
threshold (and within the maximum size). -/
theorem claim_C10_small_function_inlining (c : InlineCallSite)
    (h1 : c.totalInlinedBytecodeSize ≤ c.maxMaglevInlinedBytecodeSizeCumulative)
    (h2 : c.hasFeedbackVector = true)
    (h3 : c.isDirectRecursion = false)
    (h4 : c.isInlineable = true)
    (h5 : c.newTargetOrGeneratorRegisterIsValid = false)
    (h6 : c.handlerTableSize = 0)
    (h7 : usesUnsupportedArgumentsBytecode c.bytecodes = false)
    (h8 : c.callFrequencyBelowThreshold = false) :
    (c.bytecodeLength < c.maxMaglevInlinedBytecodeSizeSmall →
      ∀ d, shouldInlineCall { c with inliningDepth := d } = true) ∧
    (c.maxMaglevInlinedBytecodeSizeSmall ≤ c.bytecodeLength →
      c.bytecodeLength ≤ c.maxMaglevInlinedBytecodeSize →
      c.maxMaglevInlineDepth < c.inliningDepth →
      shouldInlineCall c = false) := by
  constructor
  · intro hsmall d
    simp only [shouldInlineCall, h2, h3, h4, h5, h6, h7, h8]
    rw [if_neg (by simp; omega), if_neg (by simp), if_neg (by simp),
        if_neg (by simp), if_neg (by simp), if_neg (by simp),
        if_neg (by simp), if_neg (by simp), if_pos (by simpa using hsmall)]
  · intro hge hmax hdepth
    simp only [shouldInlineCall, h2, h3, h4, h5, h6, h7, h8]
    rw [if_neg (by simp; omega), if_neg (by simp), if_neg (by simp),
        if_neg (by simp), if_neg (by simp), if_neg (by simp),
        if_neg (by simp), if_neg (by simp), if_neg (by omega),
        if_neg (by omega), if_pos (by omega)]

/-- Witness for C10 at a concrete input. -/
theorem claim_C10_small_function_inlining_witness :
    ((10 : Nat) < 50 →
      ∀ d, shouldInlineCall
        ⟨0, 100, true, false, true, false, 0, [.otherInl], false,
          10, 50, 80, d, 3⟩ = true) ∧
    ((50 : Nat) ≤ 10 → (10 : Nat) ≤ 80 → (3 : Nat) < 7 →
      shouldInlineCall
        ⟨0, 100, true, false, true, false, 0, [.otherInl], false,
          10, 50, 80, 7, 3⟩ = false) :=
  claim_C10_small_function_inlining
    ⟨0, 100, true, false, true, false, 0, [.otherInl], false, 10, 50, 80, 7, 3⟩
    (by decide) rfl rfl rfl rfl rfl (by decide) rfl

/-- Claim C5: the branch-fusion scan returns no branch offset whenever
it encounters a merge-point offset, a `Star` (or short `Star`) storing
the accumulator to a parameter or live register, or any bytecode outside
the supported set; on a `Return` it bails unless the builder is
inlining, the inlined new-target is the undefined root constant, the
`Return` is the last bytecode of the inlined function, and the inline
exit offset is not a merge point — and exactly under those four
conditions it crosses into the caller's bytecode, continuing the scan in
the parent frame just past the parent's current offset. -/
theorem claim_C5_try_find_next_branch (parents : List FusionFrame)
    (fr : FusionFrame) (i : Nat) (r : BcRegister) (p : FusionFrame)
    (ps : List FusionFrame) :
    (fr.isOffsetAMergePoint i = true →
      tryFindNextBranchFrom parents fr i = none) ∧
    (fr.bytecodes.getD i .illegalBc = .star r →
      (r.isParameterReg || fr.outRegisterIsLive i r.index) = true →
      tryFindNextBranchFrom parents fr i = none) ∧
    (fr.bytecodes.getD i .illegalBc = .shortStar r →
      (r.isParameterReg || fr.outRegisterIsLive i r.index) = true →
      tryFindNextBranchFrom parents fr i = none) ∧
    (fr.bytecodes.getD i .illegalBc = .unsupportedBc →
      tryFindNextBranchFrom parents fr i = none) ∧
    (fr.bytecodes.getD i .illegalBc = .returnBc →
      (fr.isInlineFrame = false ∨ fr.inlinedNewTargetIsRootConstant = false ∨
        fr.bytecodes.getD (i + 1) .illegalBc ≠ .illegalBc ∨
        fr.inlineExitOffsetIsMergePoint = true) →
      tryFindNextBranchFrom parents fr i = none) ∧
    (fr.isOffsetAMergePoint i = false →
      fr.bytecodes.getD i .illegalBc = .returnBc →
      fr.isInlineFrame = true →
      fr.inlinedNewTargetIsRootConstant = true →
      fr.bytecodes.getD (i + 1) .illegalBc = .illegalBc →
      fr.inlineExitOffsetIsMergePoint = false →
      tryFindNextBranchFrom (p :: ps) fr i =
        tryFindNextBranchFrom ps p (p.currentOffset + 1)) := by
  have hlen_of_ne : fr.bytecodes.getD i .illegalBc ≠ .illegalBc →
      i < fr.bytecodes.length := by
    intro hne
    by_contra hge
    exact hne (List.getD_eq_default _ _ (by omega))
  refine ⟨?_, ?_, ?_, ?_, ?_, ?_⟩
  · intro hm
    have hscan : scanFrameLocal fr (fr.bytecodes.length - i) i = .noBranch := by
      cases hf : fr.bytecodes.length - i with
      | zero => rw [scanFrameLocal]
      | succ k => rw [scanFrameLocal, if_pos hm]
    cases parents <;> simp [tryFindNextBranchFrom, hscan]
  · intro hb hlive
    have hlen := hlen_of_ne (by rw [hb]; exact fun hc => nomatch hc)
    have hscan : scanFrameLocal fr (fr.bytecodes.length - i) i = .noBranch := by
      cases hf : fr.bytecodes.length - i with
      | zero => exact absurd hf (by omega)
      | succ k =>
          by_cases hm : fr.isOffsetAMergePoint i
          · rw [scanFrameLocal, if_pos hm]
          · rw [scanFrameLocal, if_neg hm, hb]
            simp only [hlive, if_true]
    cases parents <;> simp [tryFindNextBranchFrom, hscan]
  · intro hb hlive
    have hlen := hlen_of_ne (by rw [hb]; exact fun hc => nomatch hc)
    have hscan : scanFrameLocal fr (fr.bytecodes.length - i) i = .noBranch := by
      cases hf : fr.bytecodes.length - i with
      | zero => exact absurd hf (by omega)
      | succ k =>
          by_cases hm : fr.isOffsetAMergePoint i
          · rw [scanFrameLocal, if_pos hm]
          · rw [scanFrameLocal, if_neg hm, hb]
            simp only [hlive, if_true]
    cases parents <;> simp [tryFindNextBranchFrom, hscan]
  · intro hb
    have hscan : scanFrameLocal fr (fr.bytecodes.length - i) i = .noBranch := by
      cases hf : fr.bytecodes.length - i with
      | zero => rw [scanFrameLocal]
      | succ k =>
          by_cases hm : fr.isOffsetAMergePoint i
          · rw [scanFrameLocal, if_pos hm]
          · rw [scanFrameLocal, if_neg hm, hb]
    cases parents <;> simp [tryFindNextBranchFrom, hscan]
  · intro hb hfail
    have hlen := hlen_of_ne (by rw [hb]; exact fun hc => nomatch hc)
    have hscan : scanFrameLocal fr (fr.bytecodes.length - i) i = .noBranch := by
      cases hf : fr.bytecodes.length - i with
      | zero => exact absurd hf (by omega)
      | succ k =>
          by_cases hm : fr.isOffsetAMergePoint i
          · rw [scanFrameLocal, if_pos hm]
          · rw [scanFrameLocal, if_neg hm, hb]
            rcases hfail with hf2 | hf2 | hf2 | hf2 <;>
              by_cases h1 : fr.isInlineFrame <;>
              by_cases h2 : fr.inlinedNewTargetIsRootConstant <;>
              simp_all
    cases parents <;> simp [tryFindNextBranchFrom, hscan]
  · intro hm hb hinl hroot hlast hexit
    have hlen := hlen_of_ne (by rw [hb]; exact fun hc => nomatch hc)
    have hscan : scanFrameLocal fr (fr.bytecodes.length - i) i = .crossReturn := by
      cases hf : fr.bytecodes.length - i with
      | zero => exact absurd hf (by omega)
      | succ k =>
          have hlast2 : fr.bytecodes[i + 1]?.getD FusionBytecode.illegalBc =
              FusionBytecode.illegalBc := by
            simpa [List.getD_eq_getElem?_getD] using hlast
          rw [scanFrameLocal, if_neg (by rw [hm]; exact Bool.false_ne_true), hb]
          simp [hinl, hroot, hexit, hlast2]
    simp [tryFindNextBranchFrom, hscan]

/-- Witness for C5: each bail-out case and the crossing case of the
theorem, applied at concrete frames. -/
theorem claim_C5_try_find_next_branch_witness :
    tryFindNextBranchFrom []
      ⟨[.mov], (fun _ => true), (fun _ _ => false), false, false, false, 0⟩ 0 = none ∧
    tryFindNextBranchFrom []
      ⟨[.star ⟨true, 0⟩], (fun _ => false), (fun _ _ => false), false, false, false, 0⟩
      0 = none ∧
    tryFindNextBranchFrom []
      ⟨[.shortStar ⟨false, 2⟩], (fun _ => false), (fun _ _ => true), false, false, false, 0⟩
      0 = none ∧
    tryFindNextBranchFrom []
      ⟨[.unsupportedBc], (fun _ => false), (fun _ _ => false), false, false, false, 0⟩
      0 = none ∧
    tryFindNextBranchFrom []
      ⟨[.returnBc], (fun _ => false), (fun _ _ => false), false, true, false, 0⟩
      0 = none ∧
    tryFindNextBranchFrom
      [⟨[.jumpIfTrue, .jumpIfTrue], (fun _ => false), (fun _ _ => false),
         false, false, false, 0⟩]
      ⟨[.returnBc], (fun _ => false), (fun _ _ => false), true, true, false, 0⟩ 0 =
      tryFindNextBranchFrom []
        ⟨[.jumpIfTrue, .jumpIfTrue], (fun _ => false), (fun _ _ => false),
          false, false, false, 0⟩ 1 := by
  refine ⟨?_, ?_, ?_, ?_, ?_, ?_⟩
  · exact (claim_C5_try_find_next_branch []
      ⟨[.mov], (fun _ => true), (fun _ _ => false), false, false, false, 0⟩ 0 ⟨false, 0⟩
      ⟨[], (fun _ => false), (fun _ _ => false), false, false, false, 0⟩ []).1 rfl
  · exact (claim_C5_try_find_next_branch []
      ⟨[.star ⟨true, 0⟩], (fun _ => false), (fun _ _ => false), false, false, false, 0⟩
      0 ⟨true, 0⟩
      ⟨[], (fun _ => false), (fun _ _ => false), false, false, false, 0⟩ []).2.1 rfl rfl
  · exact (claim_C5_try_find_next_branch []
      ⟨[.shortStar ⟨false, 2⟩], (fun _ => false), (fun _ _ => true), false, false, false, 0⟩
      0 ⟨false, 2⟩
      ⟨[], (fun _ => false), (fun _ _ => false), false, false, false, 0⟩ []).2.2.1 rfl rfl
  · exact (claim_C5_try_find_next_branch []
      ⟨[.unsupportedBc], (fun _ => false), (fun _ _ => false), false, false, false, 0⟩
      0 ⟨false, 0⟩
      ⟨[], (fun _ => false), (fun _ _ => false), false, false, false, 0⟩ []).2.2.2.1 rfl
  · exact (claim_C5_try_find_next_branch []
      ⟨[.returnBc], (fun _ => false), (fun _ _ => false), false, true, false, 0⟩
      0 ⟨false, 0⟩
      ⟨[], (fun _ => false), (fun _ _ => false), false, false, false, 0⟩ []).2.2.2.2.1
      rfl (Or.inl rfl)
  · exact (claim_C5_try_find_next_branch []
      ⟨[.returnBc], (fun _ => false), (fun _ _ => false), true, true, false, 0⟩ 0 ⟨false, 0⟩
      ⟨[.jumpIfTrue, .jumpIfTrue], (fun _ => false), (fun _ _ => false),
        false, false, false, 0⟩ []).2.2.2.2.2 rfl rfl rfl rfl rfl rfl

theorem foldl_mergerStep_subset (mo : MapOracle) (requested : List Nat)
    (objType : Nat) (pms : List Nat) (h : ∀ m ∈ pms, m ∈ requested) :
    ∀ st : KnownMapsMerger,
      (pms.foldl (mergerStep mo requested objType) st).subsetFlag = st.subsetFlag := by
  induction pms with
  | nil => intro st; rfl
  | cons x xs ih =>
      intro st
      simp only [List.foldl_cons]
      rw [ih (fun m hm => h m (List.mem_cons_of_mem _ hm))]
      unfold mergerStep
      rw [if_pos (h x (List.mem_cons_self _ _))]
      split
      · rfl
      · rfl

theorem foldl_mergerStep_disjoint (mo : MapOracle) (requested : List Nat)
    (objType : Nat) (pms : List Nat) (h : ∀ m ∈ pms, m ∉ requested) :
    ∀ st : KnownMapsMerger,
      (pms.foldl (mergerStep mo requested objType) st).intersectSet = st.intersectSet ∧
      (pms.foldl (mergerStep mo requested objType) st).subsetFlag =
        (st.subsetFlag && pms.isEmpty) := by
  induction pms with
  | nil => intro st; exact ⟨rfl, by simp⟩
  | cons x xs ih =>
      intro st
      simp only [List.foldl_cons]
      have hstep : mergerStep mo requested objType st x = { st with subsetFlag := false } := by
        unfold mergerStep
        rw [if_neg (h x (List.mem_cons_self _ _))]
      rw [hstep]
      obtain ⟨h1, h2⟩ := ih (fun m hm => h m (List.mem_cons_of_mem _ hm))
        { st with subsetFlag := false }
      exact ⟨h1, by simp [h2]⟩

/-- Claim C1 counterexample: both halves of the claim's deopt case fail
on the code.  With a known possible-maps set that is empty (so its
intersection with the requested set `{7}` is empty) `BuildCheckMaps`
takes the subset branch and returns success with no nodes; and for a
constant object with stable map 5 requested among the maps, known
possible maps `{3}` disjoint from the requested `{5}`, the constant fast
path returns success with no nodes — in neither case is an
unconditional-deopt node emitted. -/
theorem claim_C1_counterexample :
    buildCheckMaps
      ⟨fun _ => true, fun _ => false, fun _ => 0, fun _ _ => true,
        fun a _ => a, 0, 0, 0, 0⟩
      none 0 true [] [7] = ⟨false, []⟩ ∧
    buildCheckMaps
      ⟨fun _ => true, fun _ => false, fun _ => 0, fun _ _ => true,
        fun a _ => a, 0, 0, 0, 0⟩
      (some 5) 0 true [3] [5] = ⟨false, []⟩ ∧
    (⟨false, []⟩ : BuildCheckMapsResult) ≠ ⟨true, [.deoptNode]⟩ := by
  decide

/-- Claim C1 (amended): for every value node whose known possible-maps
set is a non-empty subset of the requested map set, `BuildCheckMaps`
returns success and emits zero new check nodes (at most tightening the
recorded lattice type); and for every value node whose known
possible-maps set is non-empty with empty intersection with the
requested set, provided the constant fast path does not apply (the node
is not a constant whose stable map belongs to the requested set),
`BuildCheckMaps` emits exactly one unconditional-deopt node and nothing
else. -/
theorem claim_C1_build_check_maps (mo : MapOracle) (constantMap : Option Nat)
    (objType : Nat) (possibleMaps requested : List Nat) :
    (possibleMaps ≠ [] → (∀ m ∈ possibleMaps, m ∈ requested) →
      buildCheckMaps mo constantMap objType true possibleMaps requested =
        ⟨false, []⟩) ∧
    (possibleMaps ≠ [] → (∀ m ∈ possibleMaps, m ∉ requested) →
      buildCheckMapsConstantFastPath mo constantMap requested = false →
      buildCheckMaps mo constantMap objType true possibleMaps requested =
        ⟨true, [.deoptNode]⟩) := by
  constructor
  · intro hne hsub
    unfold buildCheckMaps
    by_cases hc : buildCheckMapsConstantFastPath mo constantMap requested
    · rw [if_pos hc]
    · rw [if_neg hc]
      have hsubset : (intersectWithKnownNodeAspects mo requested objType
          true possibleMaps).subsetFlag = true := by
        unfold intersectWithKnownNodeAspects
        rw [if_pos rfl]
        have hval := foldl_mergerStep_subset mo requested objType possibleMaps hsub
          (initialMerger mo)
        dsimp only
        split
        · simpa [initialMerger] using hval
        · simpa [initialMerger] using hval
      rw [if_pos hsubset]
  · intro hne hdisj hc
    unfold buildCheckMaps
    rw [if_neg (by rw [hc]; exact Bool.false_ne_true)]
    obtain ⟨hint, hflag⟩ := foldl_mergerStep_disjoint mo requested objType
      possibleMaps hdisj (initialMerger mo)
    have hstate : intersectWithKnownNodeAspects mo requested objType true possibleMaps =
        { possibleMaps.foldl (mergerStep mo requested objType) (initialMerger mo) with
            mergerNodeType := mo.kUnknownNodeType } := by
      unfold intersectWithKnownNodeAspects
      rw [if_pos rfl]
      dsimp only
      rw [if_pos (by rw [hint]; rfl)]
    rw [hstate]
    have hflag2 : (possibleMaps.foldl (mergerStep mo requested objType)
        (initialMerger mo)).subsetFlag = false := by
      rw [hflag]
      cases possibleMaps with
      | nil => exact absurd rfl hne
      | cons x xs => simp [initialMerger]
    rw [if_neg (by simpa [hflag2] using Bool.false_ne_true)]
    rw [if_pos (by simpa using hint)]

/-- Witness for the amended C1: the subset case and the disjoint case at
concrete inputs. -/
theorem claim_C1_build_check_maps_witness :
    buildCheckMaps
      ⟨fun _ => true, fun _ => false, fun _ => 0, fun _ _ => true,
        fun a _ => a, 0, 0, 0, 0⟩
      none 0 true [4] [4, 9] = ⟨false, []⟩ ∧
    buildCheckMaps
      ⟨fun _ => true, fun _ => false, fun _ => 0, fun _ _ => true,
        fun a _ => a, 0, 0, 0, 0⟩
      none 0 true [4] [9] = ⟨true, [.deoptNode]⟩ :=
  ⟨(claim_C1_build_check_maps _ none 0 [4] [4, 9]).1 (by decide) (by decide),
   (claim_C1_build_check_maps _ none 0 [4] [9]).2 (by decide) (by decide) rfl⟩

theorem alookup_aset_self {κ α : Type} [DecidableEq κ] (k : κ) (v : α)
    (m : List (κ × α)) : alookup k (aset k v m) = some v := by
  induction m with
  | nil => simp [aset, alookup]
  | cons kv rest ih =>
      obtain ⟨k2, v2⟩ := kv
      unfold aset
      by_cases hk : k = k2
      · rw [if_pos hk]
        simp [alookup]
      · rw [if_neg hk]
        simpa [alookup, hk] using ih

theorem alookup_aset_ne {κ α : Type} [DecidableEq κ] (k k2 : κ) (v : α)
    (m : List (κ × α)) (h : k ≠ k2) : alookup k (aset k2 v m) = alookup k m := by
  induction m with
  | nil => simp [aset, alookup, h]
  | cons kv rest ih =>
      obtain ⟨k3, v3⟩ := kv
      unfold aset
      by_cases hk : k2 = k3
      · rw [if_pos hk]
        subst hk
        simp [alookup, h]
      · rw [if_neg hk]
        by_cases hk2 : k = k3
        · simp [alookup, hk2]
        · simpa [alookup, hk2] using ih

/-- A cached tagged alternative is returned as-is. -/
theorem getTaggedValue_cached (o : TypeOracle) (s : BuilderState) (n : Nat)
    (info : MaglevNodeInfo) (a : Nat) (hr : reprOfNode s n ≠ .tagged)
    (hq : alookup n s.aspects = some info) (ha : info.alt.taggedAlt = some a) :
    getTaggedValue o s n = (a, s) := by
  unfold getTaggedValue getOrCreateInfoFor
  rw [if_neg hr]
  simp [hq, ha]

/-- After `cacheTagged`, a `GetTaggedValue` on the same node returns the
cached node and leaves the state unchanged. -/
theorem getTaggedValue_after_cacheTagged (o : TypeOracle) (s1 : BuilderState)
    (n : Nat) (k : ConvKind) (hn : n < s1.nextNodeId)
    (hr : reprOfNode s1 n ≠ .tagged) :
    getTaggedValue o (cacheTagged s1 n k).2 n = cacheTagged s1 n k := by
  have hne : n ≠ s1.nextNodeId := by omega
  have hres : cacheTagged s1 n k =
      (s1.nextNodeId,
       { nextNodeId := s1.nextNodeId + 1,
         descs := aset s1.nextNodeId (.conversion k n) s1.descs,
         aspects := aset n
           { (alookup n s1.aspects).getD { nodeType := 0, alt := {} } with
               alt := { ((alookup n s1.aspects).getD
                          { nodeType := 0, alt := {} }).alt with
                   taggedAlt := some s1.nextNodeId } }
           s1.aspects,
         int32Constants := s1.int32Constants,
         float64Constants := s1.float64Constants,
         createdNodes := s1.createdNodes ++ [s1.nextNodeId] }) := rfl
  rw [hres]
  apply getTaggedValue_cached o _ n _ s1.nextNodeId
  · show reprOfDesc ((alookup n (aset s1.nextNodeId (.conversion k n) s1.descs)).getD
      (.otherNode .tagged)) ≠ .tagged
    rw [alookup_aset_ne n s1.nextNodeId _ _ hne]
    exact hr
  · exact alookup_aset_self n _ s1.aspects
  · rfl

theorem getOrCreateInfoFor_descs (o : TypeOracle) (s : BuilderState) (n : Nat) :
    (getOrCreateInfoFor o s n).2.descs = s.descs := by
  cases h : alookup n s.aspects <;> simp [getOrCreateInfoFor, h]

theorem getOrCreateInfoFor_nextNodeId (o : TypeOracle) (s : BuilderState) (n : Nat) :
    (getOrCreateInfoFor o s n).2.nextNodeId = s.nextNodeId := by
  cases h : alookup n s.aspects <;> simp [getOrCreateInfoFor, h]

theorem getOrCreateInfoFor_self_lookup (o : TypeOracle) (s : BuilderState) (n : Nat) :
    alookup n (getOrCreateInfoFor o s n).2.aspects =
      some (getOrCreateInfoFor o s n).1 := by
  cases h : alookup n s.aspects <;> simp [getOrCreateInfoFor, h, alookup_aset_self]

theorem getOrCreateInfoFor_idem (o : TypeOracle) (s : BuilderState) (n : Nat) :
    getOrCreateInfoFor o (getOrCreateInfoFor o s n).2 n =
      ((getOrCreateInfoFor o s n).1, (getOrCreateInfoFor o s n).2) := by
  have hself := getOrCreateInfoFor_self_lookup o s n
  set P := getOrCreateInfoFor o s n with hP
  unfold getOrCreateInfoFor
  rw [hself]

theorem getOrCreateInfoFor_repr (o : TypeOracle) (s : BuilderState) (n x : Nat) :
    reprOfNode (getOrCreateInfoFor o s n).2 x = reprOfNode s x := by
  unfold reprOfNode descOf
  rw [getOrCreateInfoFor_descs]

/-- Evaluation of `GetTaggedValue` when the tagged alternative is not
cached yet. -/
theorem getTaggedValue_miss_eval (o : TypeOracle) (s : BuilderState) (n : Nat)
    (hr : reprOfNode s n ≠ .tagged)
    (halt : (getOrCreateInfoFor o s n).1.alt.taggedAlt = none) :
    getTaggedValue o s n =
      (match reprOfNode s n with
       | .int32 =>
           if o.nodeTypeIs (getOrCreateInfoFor o s n).1.nodeType o.kSmiType then
             cacheTagged (getOrCreateInfoFor o s n).2 n .unsafeSmiTag
           else cacheTagged (getOrCreateInfoFor o s n).2 n .int32ToNumber
       | .uint32 =>
           if o.nodeTypeIs (getOrCreateInfoFor o s n).1.nodeType o.kSmiType then
             cacheTagged (getOrCreateInfoFor o s n).2 n .unsafeSmiTag
           else cacheTagged (getOrCreateInfoFor o s n).2 n .uint32ToNumber
       | .float64 => cacheTagged (getOrCreateInfoFor o s n).2 n .float64ToTagged
       | .holeyFloat64 => cacheTagged (getOrCreateInfoFor o s n).2 n .holeyFloat64ToTagged
       | _ => (n, (getOrCreateInfoFor o s n).2)) := by
  unfold getTaggedValue
  rw [if_neg hr]
  dsimp only
  simp only [halt]

/-- The `GetTaggedValue` cache: two consecutive calls on the same node
return the same node and the second leaves the state unchanged. -/
theorem getTaggedValue_idempotent (o : TypeOracle) (s : BuilderState) (n : Nat)
    (hn : n < s.nextNodeId) :
    getTaggedValue o (getTaggedValue o s n).2 n = getTaggedValue o s n := by
  by_cases hr : reprOfNode s n = .tagged
  · simp [getTaggedValue, hr]
  · have hnext := getOrCreateInfoFor_nextNodeId o s n
    have hrepr2 := getOrCreateInfoFor_repr o s n n
    rcases halt : (getOrCreateInfoFor o s n).1.alt.taggedAlt with _ | a
    · rw [getTaggedValue_miss_eval o s n hr halt]
      have hn2 : n < (getOrCreateInfoFor o s n).2.nextNodeId := by rw [hnext]; exact hn
      have hr2 : reprOfNode (getOrCreateInfoFor o s n).2 n ≠ .tagged := by
        rw [hrepr2]; exact hr
      cases hrep : reprOfNode s n with
      | tagged => exact absurd hrep hr
      | int32 =>
          simp only [hrep]
          by_cases hsmi : o.nodeTypeIs (getOrCreateInfoFor o s n).1.nodeType o.kSmiType
          · rw [if_pos hsmi]
            exact getTaggedValue_after_cacheTagged o _ n _ hn2 hr2
          · rw [if_neg hsmi]
            exact getTaggedValue_after_cacheTagged o _ n _ hn2 hr2
      | uint32 =>
          simp only [hrep]
          by_cases hsmi : o.nodeTypeIs (getOrCreateInfoFor o s n).1.nodeType o.kSmiType
          · rw [if_pos hsmi]
            exact getTaggedValue_after_cacheTagged o _ n _ hn2 hr2
          · rw [if_neg hsmi]
            exact getTaggedValue_after_cacheTagged o _ n _ hn2 hr2
      | float64 =>
          simp only [hrep]
          exact getTaggedValue_after_cacheTagged o _ n _ hn2 hr2
      | holeyFloat64 =>
          simp only [hrep]
          exact getTaggedValue_after_cacheTagged o _ n _ hn2 hr2
      | word64 =>
          simp only [hrep]
          have halt2 : (getOrCreateInfoFor o (getOrCreateInfoFor o s n).2 n).1.alt.taggedAlt
              = none := by
            rw [getOrCreateInfoFor_idem]
            exact halt
          rw [getTaggedValue_miss_eval o (getOrCreateInfoFor o s n).2 n hr2 halt2]
          rw [show reprOfNode (getOrCreateInfoFor o s n).2 n = ValueRepr.word64 from
            hrepr2.trans hrep]
          rw [getOrCreateInfoFor_idem]
    · rcases hq : alookup n s.aspects with _ | info
      · have hnone : (getOrCreateInfoFor o s n).1.alt.taggedAlt = none := by
          simp [getOrCreateInfoFor, hq]
        rw [halt] at hnone
        exact absurd hnone (by simp)
      · have hPs : getOrCreateInfoFor o s n = (info, s) := by
          simp [getOrCreateInfoFor, hq]
        have ha : info.alt.taggedAlt = some a := by
          rw [hPs] at halt
          exact halt
        rw [getTaggedValue_cached o s n info a hr hq ha,
            getTaggedValue_cached o s n info a hr hq ha]

theorem getInt32Constant_idem (s : BuilderState) (v : Int) :
    getInt32Constant (getInt32Constant s v).2 v = getInt32Constant s v := by
  cases h : alookup v s.int32Constants with
  | some id => simp [getInt32Constant, h]
  | none => simp [getInt32Constant, newNode, h, alookup_aset_self]

theorem getInt32Constant_desc (s : BuilderState) (v : Int) (n : Nat)
    (hn : n < s.nextNodeId) :
    descOf (getInt32Constant s v).2 n = descOf s n := by
  cases h : alookup v s.int32Constants with
  | some id => simp [getInt32Constant, h]
  | none =>
      simp [getInt32Constant, newNode, h, descOf,
        alookup_aset_ne n s.nextNodeId _ _ (by omega)]

theorem ensureType_descs (o : TypeOracle) (s : BuilderState) (n t : Nat) :
    (ensureType o s n t).2.2.descs = s.descs := by
  unfold ensureType
  dsimp only
  split
  · exact getOrCreateInfoFor_descs o s n
  · simp [updateInfo, getOrCreateInfoFor_descs]

theorem ensureType_nextNodeId (o : TypeOracle) (s : BuilderState) (n t : Nat) :
    (ensureType o s n t).2.2.nextNodeId = s.nextNodeId := by
  unfold ensureType
  dsimp only
  split
  · exact getOrCreateInfoFor_nextNodeId o s n
  · simp [updateInfo, getOrCreateInfoFor_nextNodeId]

/-- A cached int32 alternative short-circuits `GetInt32` (under the
conditions making its constant switch fall through). -/
theorem getInt32_cached (o : TypeOracle) (s : BuilderState) (n : Nat)
    (info : MaglevNodeInfo) (a : Nat) (hr : reprOfNode s n ≠ .int32)
    (hc1 : ∀ v, descOf s n ≠ .smiConstant v)
    (hc2 : ∀ fv, descOf s n = .float64Constant fv → fv.smiDouble = false)
    (hq : alookup n s.aspects = some info) (ha : info.alt.int32Alt = some a) :
    getInt32 o s n = (a, s) := by
  have hnc : getInt32NonConstant o s n = (a, s) := by
    simp [getInt32NonConstant, getOrCreateInfoFor, hq, ha]
  unfold getInt32
  rw [if_neg hr]
  cases hd : descOf s n with
  | smiConstant v => exact absurd hd (hc1 v)
  | float64Constant fv =>
      simp only [hd]
      rw [if_neg (by rw [hc2 fv hd]; exact Bool.false_ne_true)]
      exact hnc
  | int32Constant v => exact hnc
  | heapConstant b f => exact hnc
  | rootConstant b1 f1 b2 f2 => exact hnc
  | conversion k i => exact hnc
  | otherNode r => exact hnc

/-- After `cacheInt32`, a `GetInt32` on the same node returns the cached
node and leaves the state unchanged. -/
theorem getInt32_after_cacheInt32 (o : TypeOracle) (s1 : BuilderState)
    (n : Nat) (k : ConvKind) (hn : n < s1.nextNodeId)
    (hr : reprOfNode s1 n ≠ .int32)
    (hc1 : ∀ v, descOf s1 n ≠ .smiConstant v)
    (hc2 : ∀ fv, descOf s1 n = .float64Constant fv → fv.smiDouble = false) :
    getInt32 o (cacheInt32 s1 n k).2 n = cacheInt32 s1 n k := by
  have hne : n ≠ s1.nextNodeId := by omega
  have hres : cacheInt32 s1 n k =
      (s1.nextNodeId,
       { nextNodeId := s1.nextNodeId + 1,
         descs := aset s1.nextNodeId (.conversion k n) s1.descs,
         aspects := aset n
           { (alookup n s1.aspects).getD { nodeType := 0, alt := {} } with
               alt := { ((alookup n s1.aspects).getD
                          { nodeType := 0, alt := {} }).alt with
                   int32Alt := some s1.nextNodeId } }
           s1.aspects,
         int32Constants := s1.int32Constants,
         float64Constants := s1.float64Constants,
         createdNodes := s1.createdNodes ++ [s1.nextNodeId] }) := rfl
  rw [hres]
  apply getInt32_cached o _ n _ s1.nextNodeId
  · show reprOfDesc ((alookup n (aset s1.nextNodeId (.conversion k n) s1.descs)).getD
      (.otherNode .tagged)) ≠ .int32
    rw [alookup_aset_ne n s1.nextNodeId _ _ hne]
    exact hr
  · intro v
    show (alookup n (aset s1.nextNodeId (.conversion k n) s1.descs)).getD
      (.otherNode .tagged) ≠ .smiConstant v
    rw [alookup_aset_ne n s1.nextNodeId _ _ hne]
    exact hc1 v
  · intro fv hfv
    apply hc2 fv
    rw [show descOf s1 n = (alookup n (aset s1.nextNodeId (.conversion k n)
      s1.descs)).getD (.otherNode .tagged) from
      (alookup_aset_ne n s1.nextNodeId _ _ hne).symm ▸ rfl]
    exact hfv
  · exact alookup_aset_self n _ s1.aspects
  · rfl

/-- Evaluation of the post-constant part of `GetInt32` when no int32
alternative is cached yet. -/
theorem getInt32NonConstant_miss_eval (o : TypeOracle) (s : BuilderState) (n : Nat)
    (halt : (getOrCreateInfoFor o s n).1.alt.int32Alt = none) :
    getInt32NonConstant o s n =
      (match reprOfNode s n with
       | .tagged => buildSmiUntagCachedInt32 o (getOrCreateInfoFor o s n).2 n
       | .uint32 =>
           if o.nodeTypeIs (getOrCreateInfoFor o s n).1.nodeType o.kSmiType then
             cacheInt32 (getOrCreateInfoFor o s n).2 n .truncateUint32ToInt32
           else cacheInt32 (getOrCreateInfoFor o s n).2 n .checkedUint32ToInt32
       | .float64 => cacheInt32 (getOrCreateInfoFor o s n).2 n .checkedTruncateFloat64ToInt32
       | .holeyFloat64 =>
           cacheInt32 (getOrCreateInfoFor o s n).2 n .checkedTruncateFloat64ToInt32
       | _ => (n, (getOrCreateInfoFor o s n).2)) := by
  unfold getInt32NonConstant
  dsimp only
  simp only [halt]

theorem ensureType_repr (o : TypeOracle) (s : BuilderState) (n t : Nat) (x : Nat) :
    reprOfNode (ensureType o s n t).2.2 x = reprOfNode s x := by
  unfold reprOfNode descOf
  rw [ensureType_descs]

theorem ensureType_desc (o : TypeOracle) (s : BuilderState) (n t : Nat) (x : Nat) :
    descOf (ensureType o s n t).2.2 x = descOf s x := by
  unfold descOf
  rw [ensureType_descs]

/-- A second `GetInt32` after the non-constant path of a first one
returns the same node and leaves the state unchanged. -/
theorem getInt32_after_nonconstant (o : TypeOracle) (s : BuilderState) (n : Nat)
    (hn : n < s.nextNodeId) (hr : reprOfNode s n ≠ .int32)
    (hc1 : ∀ v, descOf s n ≠ .smiConstant v)
    (hc2 : ∀ fv, descOf s n = .float64Constant fv → fv.smiDouble = false) :
    getInt32 o (getInt32NonConstant o s n).2 n = getInt32NonConstant o s n := by
  have hnext := getOrCreateInfoFor_nextNodeId o s n
  have hrepr2 := getOrCreateInfoFor_repr o s n n
  have hdesc2 : descOf (getOrCreateInfoFor o s n).2 n = descOf s n := by
    unfold descOf
    rw [getOrCreateInfoFor_descs]
  have hn2 : n < (getOrCreateInfoFor o s n).2.nextNodeId := by rw [hnext]; exact hn
  have hr2 : reprOfNode (getOrCreateInfoFor o s n).2 n ≠ .int32 := by
    rw [hrepr2]; exact hr
  have hc1b : ∀ v, descOf (getOrCreateInfoFor o s n).2 n ≠ .smiConstant v := by
    intro v; rw [hdesc2]; exact hc1 v
  have hc2b : ∀ fv, descOf (getOrCreateInfoFor o s n).2 n = .float64Constant fv →
      fv.smiDouble = false := by
    intro fv hfv; exact hc2 fv (hdesc2 ▸ hfv)
  rcases halt : (getOrCreateInfoFor o s n).1.alt.int32Alt with _ | a
  · rw [getInt32NonConstant_miss_eval o s n halt]
    cases hrep : reprOfNode s n with
    | int32 => exact absurd hrep hr
    | tagged =>
        simp only [hrep]
        have hnE : n < (ensureType o (getOrCreateInfoFor o s n).2 n o.kSmiType).2.2.nextNodeId := by
          rw [ensureType_nextNodeId, hnext]; exact hn
        have hrE : reprOfNode (ensureType o (getOrCreateInfoFor o s n).2 n
            o.kSmiType).2.2 n ≠ .int32 := by
          rw [ensureType_repr, hrepr2]; exact hr
        have hc1E : ∀ v, descOf (ensureType o (getOrCreateInfoFor o s n).2 n
            o.kSmiType).2.2 n ≠ .smiConstant v := by
          intro v; rw [ensureType_desc, hdesc2]; exact hc1 v
        have hc2E : ∀ fv, descOf (ensureType o (getOrCreateInfoFor o s n).2 n
            o.kSmiType).2.2 n = .float64Constant fv → fv.smiDouble = false := by
          intro fv hfv
          exact hc2 fv (hdesc2 ▸ (ensureType_desc o _ n o.kSmiType n ▸ hfv))
        unfold buildSmiUntagCachedInt32
        dsimp only
        split
        · exact getInt32_after_cacheInt32 o _ n _ hnE hrE hc1E hc2E
        · exact getInt32_after_cacheInt32 o _ n _ hnE hrE hc1E hc2E
    | uint32 =>
        simp only [hrep]
        by_cases hsmi : o.nodeTypeIs (getOrCreateInfoFor o s n).1.nodeType o.kSmiType
        · rw [if_pos hsmi]
          exact getInt32_after_cacheInt32 o _ n _ hn2 hr2 hc1b hc2b
        · rw [if_neg hsmi]
          exact getInt32_after_cacheInt32 o _ n _ hn2 hr2 hc1b hc2b
    | float64 =>
        simp only [hrep]
        exact getInt32_after_cacheInt32 o _ n _ hn2 hr2 hc1b hc2b
    | holeyFloat64 =>
        simp only [hrep]
        exact getInt32_after_cacheInt32 o _ n _ hn2 hr2 hc1b hc2b
    | word64 =>
        simp only [hrep]
        have halt2 : (getOrCreateInfoFor o (getOrCreateInfoFor o s n).2 n).1.alt.int32Alt
            = none := by
          rw [getOrCreateInfoFor_idem]
          exact halt
        have hnc2 : getInt32NonConstant o (getOrCreateInfoFor o s n).2 n =
            (n, (getOrCreateInfoFor o s n).2) := by
          rw [getInt32NonConstant_miss_eval o _ n halt2]
          rw [show reprOfNode (getOrCreateInfoFor o s n).2 n = ValueRepr.word64 from
            hrepr2.trans hrep]
          rw [getOrCreateInfoFor_idem]
        unfold getInt32
        rw [if_neg hr2]
        cases hd : descOf (getOrCreateInfoFor o s n).2 n with
        | smiConstant v => exact absurd hd (hc1b v)
        | float64Constant fv =>
            simp only [hd]
            rw [if_neg (by rw [hc2b fv hd]; exact Bool.false_ne_true)]
            exact hnc2
        | int32Constant v => exact hnc2
        | heapConstant b f => exact hnc2
        | rootConstant b1 f1 b2 f2 => exact hnc2
        | conversion k i => exact hnc2
        | otherNode rr => exact hnc2
  · rcases hq : alookup n s.aspects with _ | info
    · have hnone : (getOrCreateInfoFor o s n).1.alt.int32Alt = none := by
        simp [getOrCreateInfoFor, hq]
      rw [halt] at hnone
      exact absurd hnone (by simp)
    · have hPs : getOrCreateInfoFor o s n = (info, s) := by
        simp [getOrCreateInfoFor, hq]
      have ha : info.alt.int32Alt = some a := by
        rw [hPs] at halt
        exact halt
      have hhit : getInt32NonConstant o s n = (a, s) := by
        simp [getInt32NonConstant, getOrCreateInfoFor, hq, ha]
      rw [hhit]
      exact getInt32_cached o s n info a hr hc1 hc2 hq ha

/-- The `GetInt32` cache: two consecutive calls on the same node return
the same node and the second leaves the state unchanged. -/
theorem getInt32_idempotent (o : TypeOracle) (s : BuilderState) (n : Nat)
    (hn : n < s.nextNodeId) :
    getInt32 o (getInt32 o s n).2 n = getInt32 o s n := by
  by_cases hr : reprOfNode s n = .int32
  · simp [getInt32, hr]
  · cases hd : descOf s n with
    | smiConstant v =>
        have h1 : getInt32 o s n = getInt32Constant s v := by
          unfold getInt32
          rw [if_neg hr]
          simp only [hd]
        rw [h1]
        have hdesc2 : descOf (getInt32Constant s v).2 n = descOf s n :=
          getInt32Constant_desc s v n hn
        have hr2 : reprOfNode (getInt32Constant s v).2 n ≠ .int32 := by
          unfold reprOfNode
          rw [hdesc2]
          exact hr
        have h2 : getInt32 o (getInt32Constant s v).2 n =
            getInt32Constant (getInt32Constant s v).2 v := by
          unfold getInt32
          rw [if_neg hr2]
          rw [show descOf (getInt32Constant s v).2 n = NodeDesc.smiConstant v from
            hdesc2.trans hd]
        rw [h2, getInt32Constant_idem]
    | float64Constant fv =>
        by_cases hsd : fv.smiDouble
        · have h1 : getInt32 o s n = getInt32Constant s fv.toSmiInt := by
            unfold getInt32
            rw [if_neg hr]
            simp only [hd]
            rw [if_pos hsd]
          rw [h1]
          have hdesc2 : descOf (getInt32Constant s fv.toSmiInt).2 n = descOf s n :=
            getInt32Constant_desc s fv.toSmiInt n hn
          have hr2 : reprOfNode (getInt32Constant s fv.toSmiInt).2 n ≠ .int32 := by
            unfold reprOfNode
            rw [hdesc2]
            exact hr
          have h2 : getInt32 o (getInt32Constant s fv.toSmiInt).2 n =
              getInt32Constant (getInt32Constant s fv.toSmiInt).2 fv.toSmiInt := by
            unfold getInt32
            rw [if_neg hr2]
            rw [show descOf (getInt32Constant s fv.toSmiInt).2 n =
              NodeDesc.float64Constant fv from hdesc2.trans hd]
            simp only
            rw [if_pos hsd]
          rw [h2, getInt32Constant_idem]
        · have h1 : getInt32 o s n = getInt32NonConstant o s n := by
            unfold getInt32
            rw [if_neg hr]
            simp only [hd]
            rw [if_neg hsd]
          rw [h1]
          exact getInt32_after_nonconstant o s n hn hr
            (by intro v hv; rw [hd] at hv; exact nomatch hv)
            (by intro fv2 hfv2; rw [hd] at hfv2; cases hfv2; simpa using hsd)
    | int32Constant v => exact absurd (by rw [reprOfNode, hd] at hr ⊢; rfl) hr
    | heapConstant b f =>
        have h1 : getInt32 o s n = getInt32NonConstant o s n := by
          unfold getInt32
          rw [if_neg hr]
          simp only [hd]
        rw [h1]
        exact getInt32_after_nonconstant o s n hn hr
          (by intro v hv; rw [hd] at hv; exact nomatch hv)
          (by intro fv2 hfv2; rw [hd] at hfv2; exact nomatch hfv2)
    | rootConstant b1 f1 b2 f2 =>
        have h1 : getInt32 o s n = getInt32NonConstant o s n := by
          unfold getInt32
          rw [if_neg hr]
          simp only [hd]
        rw [h1]
        exact getInt32_after_nonconstant o s n hn hr
          (by intro v hv; rw [hd] at hv; exact nomatch hv)
          (by intro fv2 hfv2; rw [hd] at hfv2; exact nomatch hfv2)
    | conversion k i =>
        have h1 : getInt32 o s n = getInt32NonConstant o s n := by
          unfold getInt32
          rw [if_neg hr]
          simp only [hd]
        rw [h1]
        exact getInt32_after_nonconstant o s n hn hr
          (by intro v hv; rw [hd] at hv; exact nomatch hv)
          (by intro fv2 hfv2; rw [hd] at hfv2; exact nomatch hfv2)
    | otherNode rr =>
        have h1 : getInt32 o s n = getInt32NonConstant o s n := by
          unfold getInt32
          rw [if_neg hr]
          simp only [hd]
        rw [h1]
        exact getInt32_after_nonconstant o s n hn hr
          (by intro v hv; rw [hd] at hv; exact nomatch hv)
          (by intro fv2 hfv2; rw [hd] at hfv2; exact nomatch hfv2)

theorem getFloat64Constant_idem (s : BuilderState) (fv : FloatVal) :
    getFloat64Constant (getFloat64Constant s fv).2 fv = getFloat64Constant s fv := by
  cases h : alookup fv.bits s.float64Constants with
  | some id => simp [getFloat64Constant, h]
  | none => simp [getFloat64Constant, newNode, h, alookup_aset_self]

theorem getFloat64Constant_desc (s : BuilderState) (fv : FloatVal) (n : Nat)
    (hn : n < s.nextNodeId) :
    descOf (getFloat64Constant s fv).2 n = descOf s n := by
  cases h : alookup fv.bits s.float64Constants with
  | some id => simp [getFloat64Constant, h]
  | none =>
      simp [getFloat64Constant, newNode, h, descOf,
        alookup_aset_ne n s.nextNodeId _ _ (by omega)]

theorem addConvNode_desc (s : BuilderState) (k : ConvKind) (input x : Nat)
    (hx : x < s.nextNodeId) :
    descOf (addConvNode s k input).2 x = descOf s x := by
  simp [addConvNode, newNode, descOf, alookup_aset_ne x s.nextNodeId _ _ (by omega)]

theorem addConvNode_nextNodeId (s : BuilderState) (k : ConvKind) (input : Nat) :
    (addConvNode s k input).2.nextNodeId = s.nextNodeId + 1 := rfl

theorem buildNumberOrOddballToFloat64_desc (o : TypeOracle) (s : BuilderState)
    (n : Nat) (ct : TaggedToF64) (x : Nat) (hx : x < s.nextNodeId) :
    descOf (buildNumberOrOddballToFloat64 o s n ct).2 x = descOf s x := by
  unfold buildNumberOrOddballToFloat64
  dsimp only
  split
  · split
    · rw [addConvNode_desc _ _ _ x
        (by rw [addConvNode_nextNodeId, ensureType_nextNodeId]; omega)]
      rw [addConvNode_desc _ _ _ x (by rw [ensureType_nextNodeId]; omega)]
      exact ensureType_desc o s n _ x
    · rw [addConvNode_desc _ _ _ x (by rw [ensureType_nextNodeId]; omega)]
      exact ensureType_desc o s n _ x
  · rw [addConvNode_desc _ _ _ x (by rw [ensureType_nextNodeId]; omega)]
    exact ensureType_desc o s n _ x

/-- The four conditions under which `GetFloat64ForToNumber`'s constant
switch (with hint `kDisallowToNumber`) falls through to the
non-constant path for node `n` in state `s`. -/
theorem getFloat64_cached (o : TypeOracle) (s : BuilderState) (n : Nat)
    (info : MaglevNodeInfo) (a : Nat) (hr : reprOfNode s n ≠ .float64)
    (h1 : ∀ v, descOf s n ≠ .smiConstant v)
    (h2 : ∀ v, descOf s n ≠ .int32Constant v)
    (h3 : ∀ ihn num, descOf s n = .heapConstant ihn num → ihn = false)
    (h4 : ∀ io raw ihn num, descOf s n = .rootConstant io raw ihn num → ihn = false)
    (hq : alookup n s.aspects = some info) (ha : info.alt.float64Alt = some a) :
    getFloat64 o s n = (a, s) := by
  have hnc : getFloat64NonConstant o 1 s n .disallowToNumber = (a, s) := by
    simp [getFloat64NonConstant, getFloat64NonConstantWith, getOrCreateInfoFor, hq, ha]
  unfold getFloat64 getFloat64ForToNumber
  rw [if_neg hr]
  cases hd : descOf s n with
  | smiConstant v => exact absurd hd (h1 v)
  | int32Constant v => exact absurd hd (h2 v)
  | float64Constant fv =>
      exact absurd (by unfold reprOfNode; rw [hd]; rfl) hr
  | heapConstant ihn num =>
      simp only [hd]
      rw [if_neg (by rw [h3 ihn num hd]; exact Bool.false_ne_true)]
      exact hnc
  | rootConstant io raw ihn num =>
      simp only [hd]
      rw [if_neg (by simp)]
      rw [if_neg (by rw [h4 io raw ihn num hd]; exact Bool.false_ne_true)]
      exact hnc
  | conversion k i => exact hnc
  | otherNode r => exact hnc

/-- After a `set_float64` write, a `GetFloat64` on the same node returns
the cached node and leaves the state unchanged. -/
theorem getFloat64_after_cacheFloat64Node (o : TypeOracle) (sX : BuilderState)
    (n m : Nat) (hr : reprOfNode sX n ≠ .float64)
    (h1 : ∀ v, descOf sX n ≠ .smiConstant v)
    (h2 : ∀ v, descOf sX n ≠ .int32Constant v)
    (h3 : ∀ ihn num, descOf sX n = .heapConstant ihn num → ihn = false)
    (h4 : ∀ io raw ihn num, descOf sX n = .rootConstant io raw ihn num → ihn = false) :
    getFloat64 o (cacheFloat64Node sX n m).2 n = cacheFloat64Node sX n m := by
  have hdescs : (cacheFloat64Node sX n m).2.descs = sX.descs := rfl
  have hdesc : descOf (cacheFloat64Node sX n m).2 n = descOf sX n := by
    unfold descOf
    rw [hdescs]
  apply getFloat64_cached o _ n _ m
  · unfold reprOfNode
    rw [hdesc]
    exact hr
  · intro v
    rw [hdesc]
    exact h1 v
  · intro v
    rw [hdesc]
    exact h2 v
  · intro ihn num hh
    exact h3 ihn num (hdesc ▸ hh)
  · intro io raw ihn num hh
    exact h4 io raw ihn num (hdesc ▸ hh)
  · exact alookup_aset_self n _ sX.aspects
  · rfl

/-- Evaluation of the post-constant part of `GetFloat64ForToNumber`
(hint `kDisallowToNumber`) when no float64 alternative is cached yet. -/
theorem getFloat64NonConstant_miss_eval (o : TypeOracle) (fuel : Nat)
    (s : BuilderState) (n : Nat)
    (halt : (getOrCreateInfoFor o s n).1.alt.float64Alt = none) :
    getFloat64NonConstant o fuel s n .disallowToNumber =
      (match reprOfNode s n with
       | .tagged =>
           cacheFloat64Node
             (buildNumberOrOddballToFloat64 o (getOrCreateInfoFor o s n).2 n .onlyNumber).2
             n
             (buildNumberOrOddballToFloat64 o (getOrCreateInfoFor o s n).2 n .onlyNumber).1
       | .int32 => cacheFloat64 (getOrCreateInfoFor o s n).2 n .changeInt32ToFloat64
       | .uint32 => cacheFloat64 (getOrCreateInfoFor o s n).2 n .changeUint32ToFloat64
       | .holeyFloat64 =>
           cacheFloat64 (getOrCreateInfoFor o s n).2 n .checkedHoleyFloat64ToFloat64
       | _ => (n, (getOrCreateInfoFor o s n).2)) := by
  unfold getFloat64NonConstant getFloat64NonConstantWith
  dsimp only
  simp only [halt]

/-- A second `GetFloat64` after the non-constant path of a first one
returns the same node and leaves the state unchanged. -/
theorem getFloat64_after_nonconstant (o : TypeOracle) (s : BuilderState) (n : Nat)
    (hn : n < s.nextNodeId) (hr : reprOfNode s n ≠ .float64)
    (h1 : ∀ v, descOf s n ≠ .smiConstant v)
    (h2 : ∀ v, descOf s n ≠ .int32Constant v)
    (h3 : ∀ ihn num, descOf s n = .heapConstant ihn num → ihn = false)
    (h4 : ∀ io raw ihn num, descOf s n = .rootConstant io raw ihn num → ihn = false) :
    getFloat64 o (getFloat64NonConstant o 1 s n .disallowToNumber).2 n =
      getFloat64NonConstant o 1 s n .disallowToNumber := by
  have hnext := getOrCreateInfoFor_nextNodeId o s n
  have hrepr2 := getOrCreateInfoFor_repr o s n n
  have hdesc2 : descOf (getOrCreateInfoFor o s n).2 n = descOf s n := by
    unfold descOf
    rw [getOrCreateInfoFor_descs]
  have hn2 : n < (getOrCreateInfoFor o s n).2.nextNodeId := by rw [hnext]; exact hn
  rcases halt : (getOrCreateInfoFor o s n).1.alt.float64Alt with _ | a
  · rw [getFloat64NonConstant_miss_eval o 1 s n halt]
    cases hrep : reprOfNode s n with
    | float64 => exact absurd hrep hr
    | tagged =>
        simp only [hrep]
        have hdescQ : descOf (buildNumberOrOddballToFloat64 o
            (getOrCreateInfoFor o s n).2 n .onlyNumber).2 n = descOf s n :=
          (buildNumberOrOddballToFloat64_desc o _ n .onlyNumber n hn2).trans hdesc2
        apply getFloat64_after_cacheFloat64Node
        · unfold reprOfNode
          rw [hdescQ]
          exact hr
        · intro v
          rw [hdescQ]
          exact h1 v
        · intro v
          rw [hdescQ]
          exact h2 v
        · intro ihn num hh
          exact h3 ihn num (hdescQ ▸ hh)
        · intro io raw ihn num hh
          exact h4 io raw ihn num (hdescQ ▸ hh)
    | int32 =>
        simp only [hrep]
        unfold cacheFloat64
        dsimp only
        have hdescQ : descOf (addConvNode (getOrCreateInfoFor o s n).2
            .changeInt32ToFloat64 n).2 n = descOf s n :=
          (addConvNode_desc _ _ n n hn2).trans hdesc2
        apply getFloat64_after_cacheFloat64Node
        · unfold reprOfNode
          rw [hdescQ]
          exact hr
        · intro v
          rw [hdescQ]
          exact h1 v
        · intro v
          rw [hdescQ]
          exact h2 v
        · intro ihn num hh
          exact h3 ihn num (hdescQ ▸ hh)
        · intro io raw ihn num hh
          exact h4 io raw ihn num (hdescQ ▸ hh)
    | uint32 =>
        simp only [hrep]
        unfold cacheFloat64
        dsimp only
        have hdescQ : descOf (addConvNode (getOrCreateInfoFor o s n).2
            .changeUint32ToFloat64 n).2 n = descOf s n :=
          (addConvNode_desc _ _ n n hn2).trans hdesc2
        apply getFloat64_after_cacheFloat64Node
        · unfold reprOfNode
          rw [hdescQ]
          exact hr
        · intro v
          rw [hdescQ]
          exact h1 v
        · intro v
          rw [hdescQ]
          exact h2 v
        · intro ihn num hh
          exact h3 ihn num (hdescQ ▸ hh)
        · intro io raw ihn num hh
          exact h4 io raw ihn num (hdescQ ▸ hh)
    | holeyFloat64 =>
        simp only [hrep]
        unfold cacheFloat64
        dsimp only
        have hdescQ : descOf (addConvNode (getOrCreateInfoFor o s n).2
            .checkedHoleyFloat64ToFloat64 n).2 n = descOf s n :=
          (addConvNode_desc _ _ n n hn2).trans hdesc2
        apply getFloat64_after_cacheFloat64Node
        · unfold reprOfNode
          rw [hdescQ]
          exact hr
        · intro v
          rw [hdescQ]
          exact h1 v
        · intro v
          rw [hdescQ]
          exact h2 v
        · intro ihn num hh
          exact h3 ihn num (hdescQ ▸ hh)
        · intro io raw ihn num hh
          exact h4 io raw ihn num (hdescQ ▸ hh)
    | word64 =>
        simp only [hrep]
        have hr2 : reprOfNode (getOrCreateInfoFor o s n).2 n ≠ .float64 := by
          rw [hrepr2]; exact hr
        have halt2 : (getOrCreateInfoFor o (getOrCreateInfoFor o s n).2
            n).1.alt.float64Alt = none := by
          rw [getOrCreateInfoFor_idem]
          exact halt
        have hnc2 : getFloat64NonConstant o 1 (getOrCreateInfoFor o s n).2 n
            .disallowToNumber = (n, (getOrCreateInfoFor o s n).2) := by
          rw [getFloat64NonConstant_miss_eval o 1 _ n halt2]
          rw [show reprOfNode (getOrCreateInfoFor o s n).2 n = ValueRepr.word64 from
            hrepr2.trans hrep]
          rw [getOrCreateInfoFor_idem]
        unfold getFloat64 getFloat64ForToNumber
        rw [if_neg hr2]
        cases hd : descOf (getOrCreateInfoFor o s n).2 n with
        | smiConstant v => exact absurd (hdesc2.symm.trans hd) (h1 v)
        | int32Constant v => exact absurd (hdesc2.symm.trans hd) (h2 v)
        | float64Constant fv =>
            exact absurd (by unfold reprOfNode; rw [hd]; rfl) hr2
        | heapConstant ihn num =>
            have hihnf : ihn = false := h3 ihn num (hdesc2.symm.trans hd)
            subst hihnf
            simp only [hd]
            simpa using hnc2
        | rootConstant io raw ihn num =>
            have hihnf : ihn = false := h4 io raw ihn num (hdesc2.symm.trans hd)
            subst hihnf
            simp only [hd]
            simpa using hnc2
        | conversion k i => exact hnc2
        | otherNode rr => exact hnc2
  · rcases hq : alookup n s.aspects with _ | info
    · have hnone : (getOrCreateInfoFor o s n).1.alt.float64Alt = none := by
        simp [getOrCreateInfoFor, hq]
      rw [halt] at hnone
      exact absurd hnone (by simp)
    · have hPs : getOrCreateInfoFor o s n = (info, s) := by
        simp [getOrCreateInfoFor, hq]
      have ha : info.alt.float64Alt = some a := by
        rw [hPs] at halt
        exact halt
      have hhit : getFloat64NonConstant o 1 s n .disallowToNumber = (a, s) := by
        simp [getFloat64NonConstant, getFloat64NonConstantWith, getOrCreateInfoFor, hq, ha]
      rw [hhit]
      exact getFloat64_cached o s n info a hr h1 h2 h3 h4 hq ha

/-- Two consecutive `GetFloat64` requests on the same node return the
identical node and the second leaves the state unchanged. -/
theorem getFloat64_idempotent (o : TypeOracle) (s : BuilderState) (n : Nat)
    (hn : n < s.nextNodeId) :
    getFloat64 o (getFloat64 o s n).2 n = getFloat64 o s n := by
  by_cases hr : reprOfNode s n = .float64
  · have h1 : getFloat64 o s n = (n, s) := by
      unfold getFloat64 getFloat64ForToNumber
      rw [if_pos hr]
    rw [h1]
    exact h1
  · cases hd : descOf s n with
    | smiConstant v =>
        have hfirst : getFloat64 o s n = getFloat64Constant s (o.floatOfInt v) := by
          unfold getFloat64 getFloat64ForToNumber
          rw [if_neg hr]
          simp only [hd]
        rw [hfirst]
        have hdescp : descOf (getFloat64Constant s (o.floatOfInt v)).2 n
            = NodeDesc.smiConstant v :=
          (getFloat64Constant_desc s _ n hn).trans hd
        have hrp : reprOfNode (getFloat64Constant s (o.floatOfInt v)).2 n ≠ .float64 := by
          unfold reprOfNode
          rw [hdescp]
          simp [reprOfDesc]
        unfold getFloat64 getFloat64ForToNumber
        rw [if_neg hrp]
        simp only [hdescp]
        exact getFloat64Constant_idem s (o.floatOfInt v)
    | int32Constant v =>
        have hfirst : getFloat64 o s n = getFloat64Constant s (o.floatOfInt v) := by
          unfold getFloat64 getFloat64ForToNumber
          rw [if_neg hr]
          simp only [hd]
        rw [hfirst]
        have hdescp : descOf (getFloat64Constant s (o.floatOfInt v)).2 n
            = NodeDesc.int32Constant v :=
          (getFloat64Constant_desc s _ n hn).trans hd
        have hrp : reprOfNode (getFloat64Constant s (o.floatOfInt v)).2 n ≠ .float64 := by
          unfold reprOfNode
          rw [hdescp]
          simp [reprOfDesc]
        unfold getFloat64 getFloat64ForToNumber
        rw [if_neg hrp]
        simp only [hdescp]
        exact getFloat64Constant_idem s (o.floatOfInt v)
    | float64Constant fv =>
        exact absurd (show reprOfNode s n = .float64 by
          unfold reprOfNode; rw [hd]; rfl) hr
    | heapConstant ihn num =>
        cases ihn with
        | true =>
            have hfirst : getFloat64 o s n = getFloat64Constant s num := by
              unfold getFloat64 getFloat64ForToNumber
              rw [if_neg hr]
              simp only [hd]
              rw [if_pos trivial]
            rw [hfirst]
            have hdescp : descOf (getFloat64Constant s num).2 n
                = NodeDesc.heapConstant true num :=
              (getFloat64Constant_desc s _ n hn).trans hd
            have hrp : reprOfNode (getFloat64Constant s num).2 n ≠ .float64 := by
              unfold reprOfNode
              rw [hdescp]
              simp [reprOfDesc]
            unfold getFloat64 getFloat64ForToNumber
            rw [if_neg hrp]
            simp only [hdescp]
            rw [if_pos trivial]
            exact getFloat64Constant_idem s num
        | false =>
            have hfirst : getFloat64 o s n
                = getFloat64NonConstant o 1 s n .disallowToNumber := by
              unfold getFloat64 getFloat64ForToNumber
              rw [if_neg hr]
              simp only [hd]
              rw [if_neg Bool.false_ne_true]
              rfl
            rw [hfirst]
            apply getFloat64_after_nonconstant o s n hn hr
            · intro v h
              rw [hd] at h
              exact NodeDesc.noConfusion h
            · intro v h
              rw [hd] at h
              exact NodeDesc.noConfusion h
            · intro a b h
              have hab := hd.symm.trans h
              injection hab with ha hb
              exact ha.symm
            · intro io raw a b h
              rw [hd] at h
              exact NodeDesc.noConfusion h
    | rootConstant io raw ihn num =>
        cases ihn with
        | true =>
            have hfirst : getFloat64 o s n = getFloat64Constant s num := by
              unfold getFloat64 getFloat64ForToNumber
              rw [if_neg hr]
              simp only [hd]
              rw [if_neg (by simp)]
              rw [if_pos trivial]
            rw [hfirst]
            have hdescp : descOf (getFloat64Constant s num).2 n
                = NodeDesc.rootConstant io raw true num :=
              (getFloat64Constant_desc s _ n hn).trans hd
            have hrp : reprOfNode (getFloat64Constant s num).2 n ≠ .float64 := by
              unfold reprOfNode
              rw [hdescp]
              simp [reprOfDesc]
            unfold getFloat64 getFloat64ForToNumber
            rw [if_neg hrp]
            simp only [hdescp]
            rw [if_neg (by simp)]
            rw [if_pos trivial]
            exact getFloat64Constant_idem s num
        | false =>
            have hfirst : getFloat64 o s n
                = getFloat64NonConstant o 1 s n .disallowToNumber := by
              unfold getFloat64 getFloat64ForToNumber
              rw [if_neg hr]
              simp only [hd]
              rw [if_neg (by simp)]
              rw [if_neg Bool.false_ne_true]
              rfl
            rw [hfirst]
            apply getFloat64_after_nonconstant o s n hn hr
            · intro v h
              rw [hd] at h
              exact NodeDesc.noConfusion h
            · intro v h
              rw [hd] at h
              exact NodeDesc.noConfusion h
            · intro a b h
              rw [hd] at h
              exact NodeDesc.noConfusion h
            · intro io2 raw2 a b h
              have hab := hd.symm.trans h
              injection hab with h1 h2 h3 h4
              exact h3.symm
    | conversion k i =>
        have hfirst : getFloat64 o s n
            = getFloat64NonConstant o 1 s n .disallowToNumber := by
          unfold getFloat64 getFloat64ForToNumber
          rw [if_neg hr]
          simp only [hd]
          rfl
        rw [hfirst]
        apply getFloat64_after_nonconstant o s n hn hr
        · intro v h
          rw [hd] at h
          exact NodeDesc.noConfusion h
        · intro v h
          rw [hd] at h
          exact NodeDesc.noConfusion h
        · intro a b h
          rw [hd] at h
          exact NodeDesc.noConfusion h
        · intro io raw a b h
          rw [hd] at h
          exact NodeDesc.noConfusion h
    | otherNode r =>
        have hfirst : getFloat64 o s n
            = getFloat64NonConstant o 1 s n .disallowToNumber := by
          unfold getFloat64 getFloat64ForToNumber
          rw [if_neg hr]
          simp only [hd]
          rfl
        rw [hfirst]
        apply getFloat64_after_nonconstant o s n hn hr
        · intro v h
          rw [hd] at h
          exact NodeDesc.noConfusion h
        · intro v h
          rw [hd] at h
          exact NodeDesc.noConfusion h
        · intro a b h
          rw [hd] at h
          exact NodeDesc.noConfusion h
        · intro io raw a b h
          rw [hd] at h
          exact NodeDesc.noConfusion h

/-- **C3** (conversion memoization, src/unnamed/part_001:1003-1045,
1244-1301, 1303-1407): for every value node and every target
representation (tagged via `GetTaggedValue`, int32 via `GetInt32`,
float64 via `GetFloat64`), two consecutive conversion requests on the
same node with no intervening side effect return the identical node
reference, and the second request leaves the builder state unchanged —
in particular it materializes no new conversion node: the first request
stores the conversion in the node's alternative cache slot and the
second reuses it. -/
theorem claim_C3_conversion_memoization (o : TypeOracle) (s : BuilderState)
    (n : Nat) (hn : n < s.nextNodeId) :
    getTaggedValue o (getTaggedValue o s n).2 n = getTaggedValue o s n ∧
    getInt32 o (getInt32 o s n).2 n = getInt32 o s n ∧
    getFloat64 o (getFloat64 o s n).2 n = getFloat64 o s n :=
  ⟨getTaggedValue_idempotent o s n hn, getInt32_idempotent o s n hn,
   getFloat64_idempotent o s n hn⟩

/-- Witness for C3 at a concrete oracle, state and node. -/
theorem claim_C3_conversion_memoization_witness :
    0 < stateW.nextNodeId ∧
    (getTaggedValue oracleW (getTaggedValue oracleW stateW 0).2 0 =
        getTaggedValue oracleW stateW 0 ∧
     getInt32 oracleW (getInt32 oracleW stateW 0).2 0 =
        getInt32 oracleW stateW 0 ∧
     getFloat64 oracleW (getFloat64 oracleW stateW 0).2 0 =
        getFloat64 oracleW stateW 0) :=
  ⟨by decide, claim_C3_conversion_memoization oracleW stateW 0 (by decide)⟩

end V8
